import Mathlib

/-!
# Record converter of the TigerBeetle gRPC API (`grpc/convert.go`)

A shallow embedding of the converter between wire records (package `proto`)
and ledger-client records (package `types` of the TigerBeetle Go client), and
the properties of the converter that the specification states.

Conventions of the embedding:

* a Go `string` is the list of its bytes (`GoString`);
* a fixed-width unsigned integer of width `w` is a natural number below `2 ^ w`
  (`Fin`), every narrowing conversion is an explicit `% 2 ^ w`; a signed wire
  integer is an `Int` obtained by two's-complement reinterpretation;
* a Go pointer is an `Option`; a Go result `(*T, error)` is a pair of options;
* `slog.Error` only writes a log record and does not influence any returned
  value, so it has no counterpart here.
-/

set_option autoImplicit false

/-- One byte. -/
abbrev Byte := Fin 256

/-- A Go string: a sequence of bytes. -/
abbrev GoString := List Byte

/-- Go `uint16`: a natural number below 2^16. -/
abbrev Uint16 := Fin 65536

/-- Go `uint32`: a natural number below 2^32. -/
abbrev Uint32 := Fin 4294967296

/-- Go `uint64`: a natural number below 2^64. -/
abbrev Uint64 := Fin 18446744073709551616

/-- Go conversion `byte(n)`. -/
def toByte (n : Nat) : Byte := ⟨n % 256, Nat.mod_lt _ (by decide)⟩

/-- Go conversion `uint16(n)`. -/
def toUint16 (n : Nat) : Uint16 := ⟨n % 65536, Nat.mod_lt _ (by decide)⟩

/-- Go conversion `uint32(n)`. -/
def toUint32 (n : Nat) : Uint32 := ⟨n % 4294967296, Nat.mod_lt _ (by decide)⟩

/-- Go conversion `uint64(n)`; also `(*big.Int).Uint64`, the low 64 bits. -/
def toUint64 (n : Nat) : Uint64 := ⟨n % 18446744073709551616, Nat.mod_lt _ (by decide)⟩

/-- Go conversion `int32(n)` of an unsigned value: the low 32 bits read as two's complement. -/
def toInt32 (n : Nat) : Int :=
  if n % 4294967296 < 2147483648 then (n % 4294967296 : Nat)
  else ((n % 4294967296 : Nat) : Int) - 4294967296

/-- Go `(*big.Int).Int64` of a non-negative value: the low 64 bits read as two's complement. -/
def toInt64 (n : Nat) : Int :=
  if n % 18446744073709551616 < 9223372036854775808 then (n % 18446744073709551616 : Nat)
  else ((n % 18446744073709551616 : Nat) : Int) - 18446744073709551616

namespace lo

/-- Go `lo.ToPtr`: a pointer to a copy of the value. -/
def ToPtr {α : Type} (x : α) : Option α := some x

/-- Go `lo.FromPtrOr`: the pointed-to value, or the fallback for a nil pointer. -/
def FromPtrOr {α : Type} (p : Option α) (fallback : α) : α :=
  match p with
  | some x => x
  | none => fallback

end lo

/-- Errors of the hexadecimal parser: the length error of the ledger client and the two errors
of Go `encoding/hex`. -/
inductive Error where
  | tooLong
  | invalidByte (b : Byte)
  | errLength
deriving DecidableEq, Repr

namespace hex

/-- Go `encoding/hex`: `hextable = "0123456789abcdef"`. -/
def hextable : List Byte :=
  [48, 49, 50, 51, 52, 53, 54, 55, 56, 57, 97, 98, 99, 100, 101, 102]

/-- Go `encoding/hex`: `reverseHexTable`, `0xff` for a byte that is no hexadecimal digit. -/
def reverseHexTable (c : Byte) : Byte :=
  if 48 ≤ c.val ∧ c.val ≤ 57 then toByte (c.val - 48)
  else if 65 ≤ c.val ∧ c.val ≤ 70 then toByte (c.val - 55)
  else if 97 ≤ c.val ∧ c.val ≤ 102 then toByte (c.val - 87)
  else 255

/-- Go `hex.EncodeToString`: two lower-case digits per byte, high nibble first. -/
def EncodeToString : List Byte → GoString
  | [] => []
  | v :: rest =>
    hextable.getD (v.val >>> 4) 0 :: hextable.getD (v.val &&& 15) 0 :: EncodeToString rest

/-- Go `hex.Decode`: the decoded bytes, or the first error met from the left. -/
def Decode : GoString → Except Error (List Byte)
  | [] => .ok []
  | [p] =>
    if (reverseHexTable p).val > 15 then .error (.invalidByte p) else .error .errLength
  | p :: q :: rest =>
    if (reverseHexTable p).val > 15 then .error (.invalidByte p)
    else if (reverseHexTable q).val > 15 then .error (.invalidByte q)
    else
      match Decode rest with
      | .ok bs => .ok (toByte (((reverseHexTable p).val <<< 4) ||| (reverseHexTable q).val) :: bs)
      | .error e => .error e

end hex

namespace types

/-- Modelled from the spec: the ledger client's 128-bit integer (`types.Uint128` of the
TigerBeetle Go client, not under src/), "a fixed-width unsigned integer used for ids and
tags". The Go type is an array of 16 bytes in little-endian order, see `Uint128.Bytes`. -/
structure Uint128 where
  val : Nat
  isLt : val < 340282366920938463463374607431768211456
deriving DecidableEq

/-- The Go zero value `types.Uint128{}`. -/
def Uint128.zero : Uint128 := ⟨0, by decide⟩

/-- The value of a byte sequence read in little-endian order. -/
def leValue : List Byte → Nat
  | [] => 0
  | b :: rest => b.val + 256 * leValue rest

/-- The first `n` little-endian bytes of a number. -/
def leBytes : Nat → Nat → List Byte
  | 0, _ => []
  | n + 1, v => toByte v :: leBytes n (v / 256)

/-- Modelled from the spec: `Uint128.Bytes` of the ledger client (not under src/), the 16 bytes
of the value, least significant first. -/
def Uint128.Bytes (value : Uint128) : List Byte := leBytes 16 value.val

/-- Modelled from the spec: `BytesToUint128` of the ledger client (not under src/), the 128-bit
value held by a 16-byte little-endian array. -/
def BytesToUint128 (value : List Byte) : Uint128 :=
  ⟨leValue (value.take 16) % 340282366920938463463374607431768211456, Nat.mod_lt _ (by decide)⟩

/-- Modelled from the spec: `swapEndian` of the ledger client (not under src/), which reverses
a byte slice in place. -/
def swapEndian (bytes : List Byte) : List Byte := bytes.reverse

/-- The loop of `Uint128.String` that drops leading `'0'` digits while more than one digit is
left. -/
def dropLeadingZeros : GoString → GoString
  | c :: c' :: rest => if c = 48 then dropLeadingZeros (c' :: rest) else c :: c' :: rest
  | s => s

/-- Modelled from the spec: `Uint128.String` of the ledger client (not under src/), the
"canonical hex string" of a 128-bit integer: the big-endian bytes in lower-case hexadecimal
with the leading zeros dropped, `"0"` for zero. -/
def Uint128.String (value : Uint128) : GoString :=
  dropLeadingZeros (hex.EncodeToString (swapEndian value.Bytes))

/-- Modelled from the spec: `Uint128.BigInt` of the ledger client (not under src/), the value
as an arbitrary-precision integer. -/
def Uint128.BigInt (value : Uint128) : Nat := leValue value.Bytes

/-- Modelled from the spec: `types.HexStringToUint128` of the ledger client (not under src/):
"parse as hexadecimal", failing on a string that "is not valid hexadecimal (or otherwise not
representable as a 128-bit integer)". More than 32 bytes are refused; an odd number of digits
is padded with a leading `'0'`; the digits are decoded to big-endian bytes at the front of a
16-byte array and that front part is reversed into little-endian order. -/
def HexStringToUint128 (value : GoString) : Uint128 × Option Error :=
  if value.length > 32 then (Uint128.zero, some .tooLong)
  else
    let value := if value.length % 2 = 1 then (48 : Byte) :: value else value
    match hex.Decode value with
    | .error err => (Uint128.zero, some err)
    | .ok decoded =>
      let nonZeroLen := decoded.length
      let bytes := decoded ++ List.replicate (16 - nonZeroLen) (0 : Byte)
      let bytes := swapEndian (bytes.take nonZeroLen) ++ bytes.drop nonZeroLen
      (BytesToUint128 bytes, none)


/-- Modelled from the spec: the ledger client's `Account` record (not under src/): "128-bit id,
four 128-bit balance counters, 128/64/32-bit user tags, 32-bit ledger id, 16-bit code, flag
bitset, 64-bit timestamp". -/
structure Account where
  ID : Uint128
  DebitsPending : Uint128
  DebitsPosted : Uint128
  CreditsPending : Uint128
  CreditsPosted : Uint128
  UserData128 : Uint128
  UserData64 : Uint64
  UserData32 : Uint32
  Reserved : Uint32
  Ledger : Uint32
  Code : Uint16
  Flags : Uint16
  Timestamp : Uint64
deriving DecidableEq

/-- Modelled from the spec: the named account flags of the ledger client (not under src/), "a
fixed, ordered list of named boolean flags per entity kind, each bound to one bit position". -/
structure AccountFlags where
  Linked : Bool
  DebitsMustNotExceedCredits : Bool
  CreditsMustNotExceedDebits : Bool
  History : Bool
  Imported : Bool
  Closed : Bool
deriving DecidableEq

/-- Modelled from the spec: `Account.AccountFlags` of the ledger client (not under src/):
"unpacking tests each bit position and produces one boolean per named flag". -/
def Account.AccountFlags (o : Account) : AccountFlags :=
  { Linked := decide (((o.Flags.val >>> 0) &&& 1) = 1)
    DebitsMustNotExceedCredits := decide (((o.Flags.val >>> 1) &&& 1) = 1)
    CreditsMustNotExceedDebits := decide (((o.Flags.val >>> 2) &&& 1) = 1)
    History := decide (((o.Flags.val >>> 3) &&& 1) = 1)
    Imported := decide (((o.Flags.val >>> 4) &&& 1) = 1)
    Closed := decide (((o.Flags.val >>> 5) &&& 1) = 1) }

/-- Modelled from the spec: the ledger client's `Transfer` record (not under src/). -/
structure Transfer where
  ID : Uint128
  DebitAccountID : Uint128
  CreditAccountID : Uint128
  Amount : Uint128
  PendingID : Uint128
  UserData128 : Uint128
  UserData64 : Uint64
  UserData32 : Uint32
  Timeout : Uint32
  Ledger : Uint32
  Code : Uint16
  Flags : Uint16
  Timestamp : Uint64
deriving DecidableEq

/-- Modelled from the spec: the named transfer flags of the ledger client (not under src/). -/
structure TransferFlags where
  Linked : Bool
  Pending : Bool
  PostPendingTransfer : Bool
  VoidPendingTransfer : Bool
  BalancingDebit : Bool
  BalancingCredit : Bool
  ClosingDebit : Bool
  ClosingCredit : Bool
  Imported : Bool
deriving DecidableEq

/-- Modelled from the spec: `Transfer.TransferFlags` of the ledger client (not under src/),
one boolean per bit position 0 to 8. -/
def Transfer.TransferFlags (o : Transfer) : TransferFlags :=
  { Linked := decide (((o.Flags.val >>> 0) &&& 1) = 1)
    Pending := decide (((o.Flags.val >>> 1) &&& 1) = 1)
    PostPendingTransfer := decide (((o.Flags.val >>> 2) &&& 1) = 1)
    VoidPendingTransfer := decide (((o.Flags.val >>> 3) &&& 1) = 1)
    BalancingDebit := decide (((o.Flags.val >>> 4) &&& 1) = 1)
    BalancingCredit := decide (((o.Flags.val >>> 5) &&& 1) = 1)
    ClosingDebit := decide (((o.Flags.val >>> 6) &&& 1) = 1)
    ClosingCredit := decide (((o.Flags.val >>> 7) &&& 1) = 1)
    Imported := decide (((o.Flags.val >>> 8) &&& 1) = 1) }

/-- Modelled from the spec: the named account-filter flags of the ledger client (not under
src/). -/
structure AccountFilterFlags where
  Debits : Bool
  Credits : Bool
  Reversed : Bool
deriving DecidableEq

/-- Modelled from the spec: `AccountFilterFlags.ToUint32` of the ledger client (not under
src/): "packing ORs together the bits of all true-valued flags". -/
def AccountFilterFlags.ToUint32 (f : AccountFilterFlags) : Uint32 :=
  let ret : Nat := 0
  let ret := if f.Debits then ret ||| (1 <<< 0) else ret
  let ret := if f.Credits then ret ||| (1 <<< 1) else ret
  let ret := if f.Reversed then ret ||| (1 <<< 2) else ret
  toUint32 ret

/-- Modelled from the spec: the ledger client's `AccountFilter` record (not under src/), the
fields the converter sets: "account id, min/max timestamp window, result limit, flag bitset".
Every other field of the Go record keeps its zero value. -/
structure AccountFilter where
  AccountID : Uint128
  TimestampMin : Uint64
  TimestampMax : Uint64
  Limit : Uint32
  Flags : Uint32
deriving DecidableEq

/-- Modelled from the spec: the ledger client's `AccountBalance` record (not under src/), "four
balance counters + timestamp". -/
structure AccountBalance where
  DebitsPending : Uint128
  DebitsPosted : Uint128
  CreditsPending : Uint128
  CreditsPosted : Uint128
  Timestamp : Uint64
deriving DecidableEq

/-- Modelled from the spec: one outcome of a batch submission in the ledger client (not under
src/), "carrying the originating index and a result code". -/
structure TransferEventResult where
  Index : Uint32
  Result : Uint32
deriving DecidableEq

/-- Modelled from the spec: the named query-filter flags of the ledger client (not under
src/). -/
structure QueryFilterFlags where
  Reversed : Bool
deriving DecidableEq

/-- Modelled from the spec: `QueryFilterFlags.ToUint32` of the ledger client (not under
src/). -/
def QueryFilterFlags.ToUint32 (f : QueryFilterFlags) : Uint32 :=
  let ret : Nat := 0
  let ret := if f.Reversed then ret ||| (1 <<< 0) else ret
  toUint32 ret

/-- Modelled from the spec: the ledger client's `QueryFilter` record (not under src/): "user
tags, code, ledger, timestamp window, limit, flag bitset". -/
structure QueryFilter where
  UserData128 : Uint128
  UserData64 : Uint64
  UserData32 : Uint32
  Ledger : Uint32
  Code : Uint16
  TimestampMin : Uint64
  TimestampMax : Uint64
  Limit : Uint32
  Flags : Uint32
deriving DecidableEq

end types

namespace proto

/-- Modelled from the spec: the wire account flags (generated package `proto`, not under src/),
the optional booleans that `AccountToProtoAccount` populates. -/
structure AccountFlags where
  Linked : Option Bool
  DebitsMustNotExceedCredits : Option Bool
  CreditsMustNotExceedDebits : Option Bool
  History : Option Bool
  Closed : Option Bool
deriving DecidableEq

/-- Modelled from the spec: the wire account record (generated package `proto`, not under
src/). -/
structure Account where
  Id : GoString
  DebitsPending : Uint64
  DebitsPosted : Uint64
  CreditsPending : Uint64
  CreditsPosted : Uint64
  UserData128 : GoString
  UserData64 : Uint64
  UserData32 : Uint32
  Ledger : Uint32
  Code : Uint32
  Flags : Option AccountFlags
  Timestamp : Uint64
deriving DecidableEq

/-- Modelled from the spec: the wire transfer flags (generated package `proto`, not under
src/). -/
structure TransferFlags where
  Linked : Option Bool
  Pending : Option Bool
  PostPendingTransfer : Option Bool
  VoidPendingTransfer : Option Bool
  BalancingDebit : Option Bool
  BalancingCredit : Option Bool
  ClosingDebit : Option Bool
  ClosingCredit : Option Bool
  Imported : Option Bool
deriving DecidableEq

/-- Modelled from the spec: the wire transfer record (generated package `proto`, not under
src/); `Amount` is a signed 64-bit integer, `PendingId` and `Timestamp` are optional. -/
structure Transfer where
  Id : GoString
  DebitAccountId : GoString
  CreditAccountId : GoString
  Amount : Int
  PendingId : Option GoString
  UserData128 : GoString
  UserData64 : Uint64
  UserData32 : Uint32
  Ledger : Uint32
  Code : Uint32
  TransferFlags : Option TransferFlags
  Timestamp : Option Uint64
deriving DecidableEq

/-- Modelled from the spec: the wire account-filter flags (generated package `proto`, not under
src/). -/
structure AccountFilterFlags where
  Debits : Option Bool
  Credits : Option Bool
  Reversed : Option Bool
deriving DecidableEq

/-- Modelled from the spec: the wire account filter (generated package `proto`, not under
src/), "possibly with a null flags sub-record and optional numeric bounds". -/
structure AccountFilter where
  AccountId : GoString
  TimestampMin : Option Uint64
  TimestampMax : Option Uint64
  Limit : Uint32
  Flags : Option AccountFilterFlags
deriving DecidableEq

/-- Modelled from the spec: the wire balance snapshot (generated package `proto`, not under
src/). -/
structure AccountBalance where
  DebitsPending : Uint64
  DebitsPosted : Uint64
  CreditsPending : Uint64
  CreditsPosted : Uint64
  Timestamp : Uint64
deriving DecidableEq

/-- Modelled from the spec: one item of the batch reply (generated package `proto`, not under
src/): a signed 32-bit index, a result code (a signed 32-bit enumeration) and the id. -/
structure CreateTransfersReplyItem where
  Index : Int
  Result : Int
  Id : GoString
deriving DecidableEq

/-- Modelled from the spec: the wire query-filter flags (generated package `proto`, not under
src/). -/
structure QueryFilterFlags where
  Reversed : Option Bool
deriving DecidableEq

/-- Modelled from the spec: the wire query filter (generated package `proto`, not under
src/). -/
structure QueryFilter where
  UserData128 : Option GoString
  UserData64 : Option Uint64
  UserData32 : Option Uint32
  Code : Option Uint32
  Ledger : Option Uint32
  TimestampMin : Option Uint64
  TimestampMax : Option Uint64
  Limit : Uint32
  Flags : Option QueryFilterFlags
deriving DecidableEq

end proto

namespace grpc

/-- The function `AccountToProtoAccount` of `grpc/convert.go`. -/
def AccountToProtoAccount (tbAccount : types.Account) : proto.Account :=
  let tbFlags := tbAccount.AccountFlags
  let pFlags : proto.AccountFlags :=
    { Linked := lo.ToPtr tbFlags.Linked
      DebitsMustNotExceedCredits := lo.ToPtr tbFlags.DebitsMustNotExceedCredits
      CreditsMustNotExceedDebits := lo.ToPtr tbFlags.CreditsMustNotExceedDebits
      History := lo.ToPtr tbFlags.History
      Closed := lo.ToPtr tbFlags.Closed }
  { Id := tbAccount.ID.String
    DebitsPending := toUint64 tbAccount.DebitsPending.BigInt
    DebitsPosted := toUint64 tbAccount.DebitsPosted.BigInt
    CreditsPending := toUint64 tbAccount.CreditsPending.BigInt
    CreditsPosted := toUint64 tbAccount.CreditsPosted.BigInt
    UserData128 := tbAccount.UserData128.String
    UserData64 := tbAccount.UserData64
    UserData32 := tbAccount.UserData32
    Ledger := tbAccount.Ledger
    Code := toUint32 tbAccount.Code.val
    Flags := some pFlags
    Timestamp := toUint64 tbAccount.Timestamp.val }

/-- The function `TransferToProtoTransfer` of `grpc/convert.go`. -/
def TransferToProtoTransfer (tbTransfer : types.Transfer) : proto.Transfer :=
  let tbFlags := tbTransfer.TransferFlags
  let pFlags : proto.TransferFlags :=
    { Linked := lo.ToPtr tbFlags.Linked
      Pending := lo.ToPtr tbFlags.Pending
      PostPendingTransfer := lo.ToPtr tbFlags.PostPendingTransfer
      VoidPendingTransfer := lo.ToPtr tbFlags.VoidPendingTransfer
      BalancingDebit := lo.ToPtr tbFlags.BalancingDebit
      BalancingCredit := lo.ToPtr tbFlags.BalancingCredit
      ClosingDebit := lo.ToPtr tbFlags.ClosingDebit
      ClosingCredit := lo.ToPtr tbFlags.ClosingCredit
      Imported := lo.ToPtr tbFlags.Imported }
  let emptyUint128 := types.Uint128.zero
  let pendingId : GoString :=
    if tbTransfer.PendingID ≠ emptyUint128 then tbTransfer.PendingID.String else []
  { Id := tbTransfer.ID.String
    DebitAccountId := tbTransfer.DebitAccountID.String
    CreditAccountId := tbTransfer.CreditAccountID.String
    Amount := toInt64 tbTransfer.Amount.BigInt
    PendingId := if pendingId = [] then none else some pendingId
    UserData128 := tbTransfer.UserData128.String
    UserData64 := tbTransfer.UserData64
    UserData32 := tbTransfer.UserData32
    Ledger := tbTransfer.Ledger
    Code := toUint32 tbTransfer.Code.val
    TransferFlags := some pFlags
    Timestamp := some tbTransfer.Timestamp }

/-- The function `HexStringToUint128` of `grpc/convert.go`: the pair of the returned pointer
and the returned error. -/
def HexStringToUint128 (hex : GoString) : Option types.Uint128 × Option Error :=
  if hex = [] then (some types.Uint128.zero, none)
  else
    match types.HexStringToUint128 hex with
    | (_, some err) => (none, some err)
    | (res, none) => (some res, none)

/-- The function `AccountFilterFromProtoToTigerbeetle` of `grpc/convert.go`. The argument is a
pointer; the outer `none` of the result is a run-time panic (a nil pointer is dereferenced),
otherwise the result is the pair of the returned pointer and the returned error. -/
def AccountFilterFromProtoToTigerbeetle (pAccountFilter : Option proto.AccountFilter) :
    Option (Option types.AccountFilter × Option Error) :=
  match pAccountFilter with
  | none => none
  | some pAccountFilter =>
    match HexStringToUint128 pAccountFilter.AccountId with
    | (_, some err) => some (none, some err)
    | (none, none) => none
    | (some accountID, none) =>
      let tbFlags : types.AccountFilterFlags :=
        match pAccountFilter.Flags with
        | some flags =>
          { Debits := lo.FromPtrOr flags.Debits false
            Credits := lo.FromPtrOr flags.Credits false
            Reversed := lo.FromPtrOr flags.Reversed false }
        | none => { Debits := false, Credits := false, Reversed := false }
      some
        (some
          { AccountID := accountID
            TimestampMin := toUint64 (lo.FromPtrOr pAccountFilter.TimestampMin 0).val
            TimestampMax := toUint64 (lo.FromPtrOr pAccountFilter.TimestampMax 0).val
            Limit := toUint32 pAccountFilter.Limit.val
            Flags := tbFlags.ToUint32 },
          none)

/-- The function `AccountBalanceFromTigerbeetleToProto` of `grpc/convert.go`. -/
def AccountBalanceFromTigerbeetleToProto (tbBalance : types.AccountBalance) :
    proto.AccountBalance :=
  { DebitsPending := toUint64 tbBalance.DebitsPending.BigInt
    DebitsPosted := toUint64 tbBalance.DebitsPosted.BigInt
    CreditsPending := toUint64 tbBalance.CreditsPending.BigInt
    CreditsPosted := toUint64 tbBalance.CreditsPosted.BigInt
    Timestamp := tbBalance.Timestamp }

/-- The loop of `ResultsToReply`: `replies` is the slice built so far. Indexing `transfers`
out of range is a run-time panic, `none`. -/
def ResultsToReply.loop (transfers : List types.Transfer) :
    List types.TransferEventResult → List proto.CreateTransfersReplyItem →
      Option (List proto.CreateTransfersReplyItem)
  | [], replies => some replies
  | r :: rest, replies =>
    match transfers[r.Index.val]? with
    | none => none
    | some t =>
      ResultsToReply.loop transfers rest
        (replies ++
          [{ Index := toInt32 r.Index.val
             Result := toInt32 r.Result.val
             Id := t.ID.String }])

/-- The function `ResultsToReply` of `grpc/convert.go`; `none` is a run-time panic. The error
argument is not used by the function. -/
def ResultsToReply (results : List types.TransferEventResult) (transfers : List types.Transfer)
    (_err : Option Error) : Option (List proto.CreateTransfersReplyItem) :=
  ResultsToReply.loop transfers results []

/-- The function `QueryFilterFromProtoToTigerbeetle` of `grpc/convert.go`: the pair of the
returned pointer and the returned error. -/
def QueryFilterFromProtoToTigerbeetle (pFilter : Option proto.QueryFilter) :
    Option types.QueryFilter × Option Error :=
  match pFilter with
  | none => (none, none)
  | some pFilter =>
    let parsed : types.Uint128 × Option Error :=
      match pFilter.UserData128 with
      | some s => if s ≠ [] then types.HexStringToUint128 s else (types.Uint128.zero, none)
      | none => (types.Uint128.zero, none)
    match parsed with
    | (_, some err) => (none, some err)
    | (userData128, none) =>
      let flags : types.QueryFilterFlags :=
        match pFilter.Flags with
        | some f => { Reversed := lo.FromPtrOr f.Reversed false }
        | none => { Reversed := false }
      (some
        { UserData128 := userData128
          UserData64 := lo.FromPtrOr pFilter.UserData64 0
          UserData32 := lo.FromPtrOr pFilter.UserData32 0
          Code := toUint16 (lo.FromPtrOr pFilter.Code 0).val
          Ledger := lo.FromPtrOr pFilter.Ledger 0
          TimestampMin := lo.FromPtrOr pFilter.TimestampMin 0
          TimestampMax := lo.FromPtrOr pFilter.TimestampMax 0
          Limit := pFilter.Limit
          Flags := flags.ToUint32 },
        none)

end grpc

/-! ## Hexadecimal strings and the numbers they denote -/

/-- Whether a byte is a hexadecimal digit, `0-9`, `A-F` or `a-f`. -/
def isHexDigit (c : Byte) : Bool :=
  (decide (48 ≤ c.val) && decide (c.val ≤ 57)) || (decide (65 ≤ c.val) && decide (c.val ≤ 70)) ||
    (decide (97 ≤ c.val) && decide (c.val ≤ 102))

/-- The value of a hexadecimal digit, the same for both cases of a letter. -/
def hexDigitValue (c : Byte) : Nat :=
  if c.val ≤ 57 then c.val - 48 else if c.val ≤ 70 then c.val - 55 else c.val - 87

/-- The number a string of hexadecimal digits denotes, continuing from `acc`. -/
def hexValueFrom (acc : Nat) (s : GoString) : Nat :=
  s.foldl (fun a c => 16 * a + hexDigitValue c) acc

/-- The number a string of hexadecimal digits denotes; leading zeros and the case of the
letters make no difference. -/
def hexValue (s : GoString) : Nat := hexValueFrom 0 s

/-- A string that consists of hexadecimal digits only. -/
def AllHexDigits (s : GoString) : Prop := ∀ c ∈ s, isHexDigit c = true

instance (s : GoString) : Decidable (AllHexDigits s) := by
  unfold AllHexDigits; exact inferInstance

/-- Valid 128-bit hex: 1 to 32 hexadecimal digits, upper or lower case. -/
def ValidHex128 (s : GoString) : Prop := 1 ≤ s.length ∧ s.length ≤ 32 ∧ AllHexDigits s

instance (s : GoString) : Decidable (ValidHex128 s) := by
  unfold ValidHex128; exact inferInstance

/-- The value of a byte sequence read in big-endian order, continuing from `acc`. -/
def beValueFrom (acc : Nat) (bs : List Byte) : Nat :=
  bs.foldl (fun a b => 256 * a + b.val) acc


/-! ## Concrete records used to evaluate the converter -/

/-- The account whose fields are all zero. -/
def zeroAccount : types.Account :=
  { ID := types.Uint128.zero
    DebitsPending := types.Uint128.zero
    DebitsPosted := types.Uint128.zero
    CreditsPending := types.Uint128.zero
    CreditsPosted := types.Uint128.zero
    UserData128 := types.Uint128.zero
    UserData64 := 0
    UserData32 := 0
    Reserved := 0
    Ledger := 0
    Code := 0
    Flags := 0
    Timestamp := 0 }

/-- The transfer whose fields are all zero. -/
def zeroTransfer : types.Transfer :=
  { ID := types.Uint128.zero
    DebitAccountID := types.Uint128.zero
    CreditAccountID := types.Uint128.zero
    Amount := types.Uint128.zero
    PendingID := types.Uint128.zero
    UserData128 := types.Uint128.zero
    UserData64 := 0
    UserData32 := 0
    Timeout := 0
    Ledger := 0
    Code := 0
    Flags := 0
    Timestamp := 0 }

/-- A transfer with a given id, all other fields zero. -/
def transferWithID (id : Nat) (h : id < 340282366920938463463374607431768211456) :
    types.Transfer :=
  { zeroTransfer with ID := ⟨id, h⟩ }

/-- The wire account filter with a given account id and flags, no bounds and limit zero. -/
def accountFilterOf (accountId : GoString) (flags : Option proto.AccountFilterFlags) :
    proto.AccountFilter :=
  { AccountId := accountId, TimestampMin := none, TimestampMax := none, Limit := 0,
    Flags := flags }

/-- The wire query filter with a given `UserData128` and every other optional field absent. -/
def queryFilterOf (userData128 : Option GoString) : proto.QueryFilter :=
  { UserData128 := userData128, UserData64 := none, UserData32 := none, Code := none,
    Ledger := none, TimestampMin := none, TimestampMax := none, Limit := 0, Flags := none }

/-- Whether a flag of a wire account filter is present and true; a null flags record has no
flag that is. -/
def flagOn (flags : Option proto.AccountFilterFlags)
    (sel : proto.AccountFilterFlags → Option Bool) : Bool :=
  match flags with
  | some fl => sel fl == some true
  | none => false

/-- The reply item that `ResultsToReply` builds for the outcome `r` when `t` is the submitted
transfer at the outcome's index. -/
def replyItemOf (r : types.TransferEventResult) (t : types.Transfer) :
    proto.CreateTransfersReplyItem :=
  { Index := toInt32 r.Index.val, Result := toInt32 r.Result.val, Id := t.ID.String }

/-- Three submitted transfers `[T0, T1, T2]` with the ids 160, 161 and 162. -/
def submittedEx : List types.Transfer :=
  [transferWithID 160 (by decide), transferWithID 161 (by decide), transferWithID 162 (by decide)]

/-- The outcomes `[{index 1, result 21}, {index 0, result 46}]`. -/
def outcomesEx : List types.TransferEventResult :=
  [{ Index := 1, Result := 21 }, { Index := 0, Result := 46 }]

/-- The account whose `DebitsPending` counter is 2^64 and whose other fields are zero. -/
def accountDebitsPending2p64 : types.Account :=
  { zeroAccount with DebitsPending := ⟨18446744073709551616, by decide⟩ }

/-- The wire query filter whose optional fields are all absent except `TimestampMin`, which is
present with the value 0. -/
def queryFilterTimestampMinZero : proto.QueryFilter :=
  { queryFilterOf none with TimestampMin := some 0 }

/-- The domain value an optional wire field stands for: the wire value when the field is
present and 0 when it is absent. -/
def presentOrZero {n : Nat} [NeZero n] (field : Option (Fin n)) : Fin n :=
  match field with
  | some x => x
  | none => 0

/-- The transfer whose amount is 2^63 and whose other fields are zero. -/
def transferAmount2p63 : types.Transfer :=
  { zeroTransfer with Amount := ⟨9223372036854775808, by decide⟩ }

/-! ## Lemmas on the hexadecimal codec and on byte order -/

theorem reverseHexTable_of_digit (c : Byte) (h : isHexDigit c = true) :
    (hex.reverseHexTable c).val = hexDigitValue c ∧ hexDigitValue c ≤ 15 := by
  obtain ⟨n, hn⟩ := c
  simp only [isHexDigit, Bool.or_eq_true, Bool.and_eq_true, decide_eq_true_eq] at h
  simp only [hex.reverseHexTable, hexDigitValue, toByte]
  split_ifs <;> simp <;> omega

theorem reverseHexTable_of_not_digit (c : Byte) (h : isHexDigit c = false) :
    (hex.reverseHexTable c).val > 15 := by
  obtain ⟨n, hn⟩ := c
  have h' : ¬ (isHexDigit ⟨n, hn⟩ = true) := by simp [h]
  simp only [isHexDigit, Bool.or_eq_true, Bool.and_eq_true, decide_eq_true_eq] at h'
  simp only [hex.reverseHexTable, toByte]
  split_ifs <;> omega

theorem reverseHexTable_le_iff (c : Byte) :
    ¬ (hex.reverseHexTable c).val > 15 ↔ isHexDigit c = true := by
  constructor
  · intro h
    by_contra hc
    exact h (reverseHexTable_of_not_digit c (by simpa using hc))
  · intro h
    have := reverseHexTable_of_digit c h
    omega

theorem nibbles_to_byte :
    ∀ a b : Fin 16, (toByte ((a.val <<< 4) ||| b.val)).val = 16 * a.val + b.val := by
  decide

theorem hextable_value : ∀ d : Fin 16, hexDigitValue (hex.hextable.getD d.val 0) = d.val := by
  decide

theorem hextable_isHexDigit : ∀ d : Fin 16, isHexDigit (hex.hextable.getD d.val 0) = true := by
  decide

theorem hexValueFrom_cons (acc : Nat) (c : Byte) (s : GoString) :
    hexValueFrom acc (c :: s) = hexValueFrom (16 * acc + hexDigitValue c) s := rfl

theorem beValueFrom_cons (acc : Nat) (b : Byte) (bs : List Byte) :
    beValueFrom acc (b :: bs) = beValueFrom (256 * acc + b.val) bs := rfl

/-- Decoding a string of an even number of hexadecimal digits succeeds, with one byte for two
digits, and the bytes read in big-endian order are the number the string denotes. -/
theorem Decode_of_digits (s : GoString) :
    AllHexDigits s → s.length % 2 = 0 →
      ∃ bs, hex.Decode s = .ok bs ∧ 2 * bs.length = s.length ∧
        ∀ acc, beValueFrom acc bs = hexValueFrom acc s := by
  induction s using hex.Decode.induct with
  | case1 => intro _ _; exact ⟨[], rfl, rfl, fun _ => rfl⟩
  | case2 p _ => intro _ hl; simp at hl
  | case3 p _ => intro _ hl; simp at hl
  | case4 p q rest hp =>
    intro hd _
    exact absurd (hd p (by simp)) (by
      intro h; exact (reverseHexTable_le_iff p).mpr h hp)
  | case5 p q rest _ hq =>
    intro hd _
    exact absurd (hd q (by simp)) (by
      intro h; exact (reverseHexTable_le_iff q).mpr h hq)
  | case6 p q rest hp hq bs hdec ih =>
    intro hd hl
    have hpd := reverseHexTable_of_digit p ((reverseHexTable_le_iff p).mp hp)
    have hqd := reverseHexTable_of_digit q ((reverseHexTable_le_iff q).mp hq)
    refine ⟨_, by simp only [hex.Decode, if_neg hp, if_neg hq, hdec]; rfl, ?_, ?_⟩
    · obtain ⟨bs', hbs', hlen, _⟩ := ih (fun c hc => hd c (by simp [hc]))
        (by simp only [List.length_cons] at hl; omega)
      rw [hdec] at hbs'
      cases hbs'
      simp only [List.length_cons]
      omega
    · intro acc
      obtain ⟨bs', hbs', _, hval⟩ := ih (fun c hc => hd c (by simp [hc]))
        (by simp only [List.length_cons] at hl; omega)
      rw [hdec] at hbs'
      cases hbs'
      have hb := nibbles_to_byte ⟨(hex.reverseHexTable p).val, by omega⟩
        ⟨(hex.reverseHexTable q).val, by omega⟩
      simp only at hb
      rw [beValueFrom_cons, hb, hexValueFrom_cons, hexValueFrom_cons, hval, hpd.1, hqd.1]
      congr 1
      ring
  | case7 p q rest hp hq e hdec ih =>
    intro hd hl
    obtain ⟨bs', hbs', _, _⟩ := ih (fun c hc => hd c (by simp [hc]))
      (by simp only [List.length_cons] at hl; omega)
    rw [hdec] at hbs'
    cases hbs'

/-- Decoding fails on every string that holds a byte which is no hexadecimal digit. -/
theorem Decode_of_not_digits (s : GoString) :
    ¬ AllHexDigits s → ∃ e, hex.Decode s = .error e := by
  induction s using hex.Decode.induct with
  | case1 => intro h; exact absurd (fun c hc => by simp at hc) h
  | case2 p hp => intro _; exact ⟨_, by simp only [hex.Decode, if_pos hp]; rfl⟩
  | case3 p hp => intro _; exact ⟨_, by simp only [hex.Decode, if_neg hp]; rfl⟩
  | case4 p q rest hp => intro _; exact ⟨_, by simp only [hex.Decode, if_pos hp]; rfl⟩
  | case5 p q rest hp hq => intro _; exact ⟨_, by simp only [hex.Decode, if_neg hp, if_pos hq]; rfl⟩
  | case6 p q rest hp hq bs hdec ih =>
    intro h
    have hrest : ¬ AllHexDigits rest := by
      intro hr
      apply h
      intro c hc
      simp only [List.mem_cons] at hc
      rcases hc with rfl | rfl | hc
      · exact (reverseHexTable_le_iff _).mp hp
      · exact (reverseHexTable_le_iff _).mp hq
      · exact hr c hc
    obtain ⟨e, he⟩ := ih hrest
    rw [hdec] at he
    cases he
  | case7 p q rest hp hq e hdec ih =>
    intro _
    exact ⟨e, by simp only [hex.Decode, if_neg hp, if_neg hq, hdec]⟩

theorem leValue_append (a b : List Byte) :
    types.leValue (a ++ b) = types.leValue a + 256 ^ a.length * types.leValue b := by
  induction a with
  | nil => simp [types.leValue]
  | cons x a ih =>
    show x.val + 256 * types.leValue (a ++ b)
      = (x.val + 256 * types.leValue a) + 256 ^ (a.length + 1) * types.leValue b
    rw [ih]
    ring

theorem leValue_replicate_zero (k : Nat) :
    types.leValue (List.replicate k (0 : Byte)) = 0 := by
  induction k with
  | zero => rfl
  | succ k ih => simp [List.replicate_succ, types.leValue, ih]

theorem leValue_lt (bs : List Byte) : types.leValue bs < 256 ^ bs.length := by
  induction bs with
  | nil => simp [types.leValue]
  | cons b bs ih =>
    have hb := b.isLt
    simp only [types.leValue, List.length_cons, pow_succ]
    omega

/-- Reading the reversed sequence in little-endian order is reading the sequence in big-endian
order. -/
theorem beValueFrom_eq (bs : List Byte) (acc : Nat) :
    beValueFrom acc bs = acc * 256 ^ bs.length + types.leValue bs.reverse := by
  induction bs generalizing acc with
  | nil => simp [beValueFrom, types.leValue]
  | cons b bs ih =>
    rw [beValueFrom_cons, ih, List.reverse_cons, leValue_append]
    simp only [types.leValue, List.length_reverse, List.length_cons]
    ring

theorem leValue_leBytes (n v : Nat) : types.leValue (types.leBytes n v) = v % 256 ^ n := by
  induction n generalizing v with
  | zero => simp [types.leBytes, types.leValue, Nat.mod_one]
  | succ n ih =>
    simp only [types.leBytes, types.leValue, ih, toByte]
    rw [pow_succ', Nat.mod_mul]

theorem length_leBytes (n v : Nat) : (types.leBytes n v).length = n := by
  induction n generalizing v with
  | zero => rfl
  | succ n ih => simp [types.leBytes, ih]

theorem hexValueFrom_lt (s : GoString) (hd : AllHexDigits s) (acc : Nat) :
    hexValueFrom acc s < (acc + 1) * 16 ^ s.length := by
  induction s generalizing acc with
  | nil => simp [hexValueFrom]
  | cons c s ih =>
    have hc := (reverseHexTable_of_digit c (hd c (by simp))).2
    have := ih (fun x hx => hd x (by simp [hx])) (16 * acc + hexDigitValue c)
    rw [hexValueFrom_cons]
    calc hexValueFrom (16 * acc + hexDigitValue c) s
        < (16 * acc + hexDigitValue c + 1) * 16 ^ s.length := this
      _ ≤ (16 * (acc + 1)) * 16 ^ s.length := Nat.mul_le_mul_right _ (by omega)
      _ = (acc + 1) * 16 ^ (c :: s).length := by
        simp only [List.length_cons, pow_succ]; ring

theorem hexValueFrom_EncodeToString (bs : List Byte) (acc : Nat) :
    hexValueFrom acc (hex.EncodeToString bs) = beValueFrom acc bs := by
  induction bs generalizing acc with
  | nil => rfl
  | cons b bs ih =>
    have hb := b.isLt
    have hhi : b.val >>> 4 = b.val / 16 := Nat.shiftRight_eq_div_pow b.val 4
    have hlo : b.val &&& 15 = b.val % 16 := Nat.and_pow_two_sub_one_eq_mod b.val 4
    have h1 := hextable_value ⟨b.val / 16, by omega⟩
    have h2 := hextable_value ⟨b.val % 16, by omega⟩
    simp only at h1 h2
    simp only [hex.EncodeToString, hexValueFrom_cons, beValueFrom_cons, hhi, hlo, h1, h2, ih]
    congr 1
    omega

theorem AllHexDigits_EncodeToString (bs : List Byte) :
    AllHexDigits (hex.EncodeToString bs) := by
  induction bs with
  | nil => intro c hc; simp [hex.EncodeToString] at hc
  | cons b bs ih =>
    have hb := b.isLt
    have hhi : b.val >>> 4 = b.val / 16 := Nat.shiftRight_eq_div_pow b.val 4
    have hlo : b.val &&& 15 = b.val % 16 := Nat.and_pow_two_sub_one_eq_mod b.val 4
    have h1 := hextable_isHexDigit ⟨b.val / 16, by omega⟩
    have h2 := hextable_isHexDigit ⟨b.val % 16, by omega⟩
    simp only at h1 h2
    intro c hc
    simp only [hex.EncodeToString, hhi, hlo, List.mem_cons] at hc
    rcases hc with rfl | rfl | hc
    · exact h1
    · exact h2
    · exact ih c hc

theorem length_EncodeToString (bs : List Byte) :
    (hex.EncodeToString bs).length = 2 * bs.length := by
  induction bs with
  | nil => rfl
  | cons b bs ih => simp only [hex.EncodeToString, List.length_cons, ih]; omega

theorem hexValue_dropLeadingZeros (s : GoString) :
    hexValue (types.dropLeadingZeros s) = hexValue s := by
  induction s using types.dropLeadingZeros.induct with
  | case1 c' rest ih =>
    rw [types.dropLeadingZeros, if_pos rfl, ih]
    rfl
  | case2 c c' rest hc => rw [types.dropLeadingZeros, if_neg hc]
  | case3 s hs =>
    match s, hs with
    | [], _ => rfl
    | [_], _ => rfl
    | c :: c' :: rest, hs => exact absurd rfl (fun h => hs c c' rest h)

theorem dropLeadingZeros_ne_nil (s : GoString) (h : s ≠ []) : types.dropLeadingZeros s ≠ [] := by
  induction s using types.dropLeadingZeros.induct with
  | case1 c' rest ih =>
    rw [types.dropLeadingZeros, if_pos rfl]
    exact ih (by simp)
  | case2 c c' rest hc => rw [types.dropLeadingZeros, if_neg hc]; simp
  | case3 s hs =>
    match s, hs, h with
    | [], _, h => exact absurd rfl h
    | [_], _, _ => simp [types.dropLeadingZeros]
    | c :: c' :: rest, hs, _ => exact absurd rfl (fun h => hs c c' rest h)

theorem mem_dropLeadingZeros (s : GoString) (c : Byte) (hc : c ∈ types.dropLeadingZeros s) :
    c ∈ s := by
  induction s using types.dropLeadingZeros.induct with
  | case1 c' rest ih =>
    rw [types.dropLeadingZeros, if_pos rfl] at hc
    exact List.mem_cons_of_mem _ (ih hc)
  | case2 d c' rest hd => rw [types.dropLeadingZeros, if_neg hd] at hc; exact hc
  | case3 s hs =>
    match s, hs, hc with
    | [], _, hc => exact hc
    | [_], _, hc => exact hc
    | d :: c' :: rest, hs, _ => exact absurd rfl (fun h => hs d c' rest h)

/-- The hex rendering of a 128-bit integer denotes that integer. -/
theorem hexValue_String (v : types.Uint128) : hexValue v.String = v.val := by
  unfold types.Uint128.String types.swapEndian types.Uint128.Bytes
  rw [hexValue_dropLeadingZeros, hexValue, hexValueFrom_EncodeToString, beValueFrom_eq,
    List.reverse_reverse, leValue_leBytes]
  have := v.isLt
  simp only [Nat.zero_mul, Nat.zero_add]
  exact Nat.mod_eq_of_lt (by norm_num; exact this)

/-- The hex rendering of a 128-bit integer is never the empty string. -/
theorem String_ne_nil (v : types.Uint128) : v.String ≠ [] := by
  unfold types.Uint128.String types.swapEndian types.Uint128.Bytes
  apply dropLeadingZeros_ne_nil
  intro h
  have hlen := length_EncodeToString (types.leBytes 16 v.val).reverse
  rw [h, List.length_reverse, length_leBytes] at hlen
  simp at hlen

/-- The hex rendering of a 128-bit integer consists of hexadecimal digits. -/
theorem AllHexDigits_String (v : types.Uint128) : AllHexDigits v.String := by
  intro c hc
  exact AllHexDigits_EncodeToString _ c (mem_dropLeadingZeros _ c hc)

/-- The value of a 128-bit integer as a big integer is its value. -/
theorem BigInt_eq (v : types.Uint128) : v.BigInt = v.val := by
  unfold types.Uint128.BigInt types.Uint128.Bytes
  rw [leValue_leBytes]
  exact Nat.mod_eq_of_lt (by have := v.isLt; norm_num; exact this)

/-- The ledger client's parser succeeds on at most 32 hexadecimal digits and returns the number
they denote. -/
theorem types_HexStringToUint128_of_digits (s : GoString) (hd : AllHexDigits s)
    (hl : s.length ≤ 32) :
    ∃ v, types.HexStringToUint128 s = (v, none) ∧ v.val = hexValue s := by
  have hpad : ∀ t : GoString, AllHexDigits t → t.length % 2 = 0 → t.length ≤ 32 →
      hexValue t = hexValue s →
      ∃ v, (match hex.Decode t with
        | .error err => (types.Uint128.zero, some err)
        | .ok decoded =>
          (types.BytesToUint128
            (types.swapEndian
                ((decoded ++ List.replicate (16 - decoded.length) (0 : Byte)).take decoded.length)
              ++ (decoded ++ List.replicate (16 - decoded.length) (0 : Byte)).drop
                decoded.length), none)) = (v, none) ∧ v.val = hexValue s := by
    intro t htd hte htl hts
    obtain ⟨bs, hdec, hlen, hval⟩ := Decode_of_digits t htd hte
    rw [hdec]
    refine ⟨_, rfl, ?_⟩
    have hbl : bs.length ≤ 16 := by omega
    have htake : (types.swapEndian bs ++ List.replicate (16 - bs.length) (0 : Byte)).take 16
        = types.swapEndian bs ++ List.replicate (16 - bs.length) (0 : Byte) := by
      apply List.take_of_length_le
      simp only [types.swapEndian, List.length_append, List.length_reverse,
        List.length_replicate]
      omega
    simp only [types.BytesToUint128, List.take_left, List.drop_left, htake, leValue_append,
      leValue_replicate_zero, Nat.mul_zero, Nat.add_zero]
    have hbe := beValueFrom_eq bs 0
    simp only [Nat.zero_mul, Nat.zero_add] at hbe
    rw [types.swapEndian, ← hbe, hval 0, ← hts]
    apply Nat.mod_eq_of_lt
    have hlt := hexValueFrom_lt t htd 0
    have hpow : 16 ^ t.length ≤ 16 ^ 32 := Nat.pow_le_pow_right (by decide) htl
    simp only [Nat.zero_add, Nat.one_mul] at hlt
    show hexValueFrom 0 t < _
    calc hexValueFrom 0 t < 16 ^ t.length := hlt
      _ ≤ 16 ^ 32 := hpow
      _ = 340282366920938463463374607431768211456 := by norm_num
  unfold types.HexStringToUint128
  rw [if_neg (by omega)]
  by_cases hodd : s.length % 2 = 1
  · simp only [if_pos hodd]
    apply hpad
    · intro c hc
      simp only [List.mem_cons] at hc
      rcases hc with rfl | hc
      · decide
      · exact hd c hc
    · simp only [List.length_cons]; omega
    · simp only [List.length_cons]; omega
    · rfl
  · simp only [if_neg hodd]
    exact hpad s hd (by omega) hl rfl

/-- The ledger client's parser fails, with the zero value, on a string of more than 32 bytes
and on a string that holds a byte which is no hexadecimal digit. -/
theorem types_HexStringToUint128_of_invalid (s : GoString)
    (h : 32 < s.length ∨ ¬ AllHexDigits s) :
    ∃ e, types.HexStringToUint128 s = (types.Uint128.zero, some e) := by
  unfold types.HexStringToUint128
  by_cases hlen : s.length > 32
  · exact ⟨_, by rw [if_pos hlen]⟩
  · rw [if_neg hlen]
    have hnd : ¬ AllHexDigits s := by
      rcases h with h | h
      · exact absurd h hlen
      · exact h
    have hpad : ¬ AllHexDigits (if s.length % 2 = 1 then (48 : Byte) :: s else s) := by
      intro hall
      apply hnd
      intro c hc
      apply hall
      split_ifs
      · exact List.mem_cons_of_mem _ hc
      · exact hc
    obtain ⟨e, he⟩ := Decode_of_not_digits _ hpad
    exact ⟨e, by simp only [he]⟩

/-- The loop of `ResultsToReply` on outcomes whose indices are all valid positions: it returns
the slice built so far followed by one item per outcome, in the order of the outcomes. -/
theorem ResultsToReply_loop_valid (transfers : List types.Transfer)
    (results : List types.TransferEventResult)
    (h : ∀ r ∈ results, r.Index.val < transfers.length)
    (acc : List proto.CreateTransfersReplyItem) :
    ∃ out, grpc.ResultsToReply.loop transfers results acc = some (acc ++ out) ∧
      out.length = results.length ∧
      ∀ (k : Nat) (r : types.TransferEventResult), results[k]? = some r →
        ∃ t : types.Transfer, transfers[r.Index.val]? = some t ∧ out[k]? = some (replyItemOf r t) := by
  induction results generalizing acc with
  | nil => exact ⟨[], by simp [grpc.ResultsToReply.loop], rfl, by simp⟩
  | cons r rest ih =>
    have hr : r.Index.val < transfers.length := h r (by simp)
    obtain ⟨t, ht⟩ : ∃ t, transfers[r.Index.val]? = some t :=
      ⟨transfers[r.Index.val], List.getElem?_eq_getElem hr⟩
    obtain ⟨out, hout, hlen, hitems⟩ :=
      ih (fun x hx => h x (by simp [hx])) (acc ++ [replyItemOf r t])
    refine ⟨replyItemOf r t :: out, ?_, by simp [hlen], ?_⟩
    · simp only [grpc.ResultsToReply.loop, ht]
      simp only [replyItemOf, List.append_assoc, List.singleton_append] at hout
      exact hout
    · intro k x hk
      cases k with
      | zero =>
        simp only [List.getElem?_cons_zero, Option.some.injEq] at hk
        subst hk
        exact ⟨t, ht, by simp⟩
      | succ k =>
        simp only [List.getElem?_cons_succ] at hk
        obtain ⟨t', ht', hitem⟩ := hitems k x hk
        exact ⟨t', ht', by simpa using hitem⟩

theorem toInt32_of_lt (n : Nat) (h : n < 2147483648) : toInt32 n = (n : Int) := by
  unfold toInt32
  have hmod : n % 4294967296 = n := Nat.mod_eq_of_lt (by omega)
  rw [hmod, if_pos h]

/-- The three outcomes of `HexStringToUint128`: the empty string gives zero, a valid 128-bit hex
string gives the number it denotes, every other string gives an error and a nil result. -/
theorem HexStringToUint128_cases (s : GoString) :
    ((s = [] ∨ ValidHex128 s) ∧
        ∃ v, grpc.HexStringToUint128 s = (some v, none) ∧ v.val = hexValue s ∧
          (s = [] → v = types.Uint128.zero)) ∨
      ((s ≠ [] ∧ ¬ ValidHex128 s) ∧ ∃ e, grpc.HexStringToUint128 s = (none, some e)) := by
  by_cases hs : s = []
  · left
    subst hs
    exact ⟨Or.inl rfl, types.Uint128.zero, rfl, rfl, fun _ => rfl⟩
  · by_cases hv : ValidHex128 s
    · left
      obtain ⟨v, hparse, hval⟩ := types_HexStringToUint128_of_digits s hv.2.2 hv.2.1
      exact ⟨Or.inr hv, v, by simp only [grpc.HexStringToUint128, if_neg hs, hparse], hval,
        fun h => absurd h hs⟩
    · right
      have hcase : 32 < s.length ∨ ¬ AllHexDigits s := by
        by_contra hc
        push_neg at hc
        apply hv
        refine ⟨?_, hc.1, hc.2⟩
        cases s with
        | nil => exact absurd rfl hs
        | cons c s => simp
      obtain ⟨e, he⟩ := types_HexStringToUint128_of_invalid s hcase
      exact ⟨⟨hs, hv⟩, e, by simp only [grpc.HexStringToUint128, if_neg hs, he]⟩

/-- The packed account-filter flags: bit 0 for Debits, bit 1 for Credits, bit 2 for Reversed. -/
theorem AccountFilterFlags_ToUint32_val (fl : types.AccountFilterFlags) :
    fl.ToUint32.val
      = (if fl.Debits then 1 else 0) ||| (if fl.Credits then 2 else 0) |||
          (if fl.Reversed then 4 else 0) := by
  obtain ⟨d, c, r⟩ := fl
  cases d <;> cases c <;> cases r <;> decide

/-- The account-filter flags that `AccountFilterFromProtoToTigerbeetle` hands to the ledger
client: a flag is set exactly when it is present and true in the wire record. -/
theorem AccountFilterFromProtoToTigerbeetle_Flags (f : proto.AccountFilter)
    (flt : types.AccountFilter)
    (h : grpc.AccountFilterFromProtoToTigerbeetle (some f) = some (some flt, none)) :
    flt.Flags = (types.AccountFilterFlags.mk (flagOn f.Flags (fun fl => fl.Debits))
      (flagOn f.Flags (fun fl => fl.Credits)) (flagOn f.Flags (fun fl => fl.Reversed))).ToUint32 := by
  unfold grpc.AccountFilterFromProtoToTigerbeetle at h
  simp only at h
  split at h
  · simp at h
  · simp at h
  · simp only [Option.some.injEq, Prod.mk.injEq, and_true] at h
    subst h
    simp only
    congr 1
    cases hf : f.Flags with
    | none => rfl
    | some fl =>
      obtain ⟨d, c, r⟩ := fl
      simp only [flagOn, lo.FromPtrOr]
      rcases d with _ | _ | _ <;> rcases c with _ | _ | _ <;> rcases r with _ | _ | _ <;> rfl

/-! ## Lemmas on flag bits, on the length of a rendering and on out-of-range indices -/

/-- The bit test of the ledger client, `((flags >> k) & 1) == 1`, is the `k`-th binary digit. -/
theorem shiftRight_and_one_eq_testBit (n k : Nat) :
    decide (((n >>> k) &&& 1) = 1) = n.testBit k := by
  rw [Nat.testBit_to_div_mod, Nat.shiftRight_eq_div_pow, Nat.and_one_is_mod]

theorem length_dropLeadingZeros_le (s : GoString) :
    (types.dropLeadingZeros s).length ≤ s.length := by
  induction s using types.dropLeadingZeros.induct with
  | case1 c' rest ih =>
    rw [types.dropLeadingZeros, if_pos rfl]
    exact Nat.le_succ_of_le ih
  | case2 c c' rest hc => rw [types.dropLeadingZeros, if_neg hc]
  | case3 s hs =>
    match s, hs with
    | [], _ => exact Nat.le_refl _
    | [_], _ => exact Nat.le_refl _
    | c :: c' :: rest, hs => exact absurd rfl (fun h => hs c c' rest h)

/-- The hex rendering of a 128-bit integer has at most 32 digits. -/
theorem length_String_le (v : types.Uint128) : v.String.length ≤ 32 := by
  unfold types.Uint128.String types.swapEndian types.Uint128.Bytes
  refine Nat.le_trans (length_dropLeadingZeros_le _) ?_
  rw [length_EncodeToString, List.length_reverse, length_leBytes]

theorem Uint128_eq_of_val_eq (v w : types.Uint128) (h : v.val = w.val) : v = w := by
  obtain ⟨a, ha⟩ := v
  obtain ⟨b, hb⟩ := w
  simp only at h
  subst h
  rfl

/-- Parsing the hex rendering of a 128-bit integer gives the integer back. -/
theorem HexStringToUint128_String (v : types.Uint128) :
    grpc.HexStringToUint128 v.String = (some v, none) := by
  obtain ⟨w, hparse, hval⟩ :=
    types_HexStringToUint128_of_digits v.String (AllHexDigits_String v) (length_String_le v)
  have hw : w = v := Uint128_eq_of_val_eq w v (by rw [hval, hexValue_String])
  simp only [grpc.HexStringToUint128, if_neg (String_ne_nil v), hparse, hw]

/-- The loop of `ResultsToReply` panics as soon as one outcome index is no valid position. -/
theorem ResultsToReply_loop_out_of_range (transfers : List types.Transfer)
    (results : List types.TransferEventResult)
    (h : ∃ r ∈ results, transfers.length ≤ r.Index.val)
    (acc : List proto.CreateTransfersReplyItem) :
    grpc.ResultsToReply.loop transfers results acc = none := by
  induction results generalizing acc with
  | nil =>
    obtain ⟨r, hr, _⟩ := h
    simp at hr
  | cons x rest ih =>
    by_cases hx : transfers.length ≤ x.Index.val
    · have hnone : transfers[x.Index.val]? = none := List.getElem?_eq_none hx
      simp only [grpc.ResultsToReply.loop, hnone]
    · have hlt : x.Index.val < transfers.length := by omega
      have hsome : transfers[x.Index.val]? = some transfers[x.Index.val] :=
        List.getElem?_eq_getElem hlt
      simp only [grpc.ResultsToReply.loop, hsome]
      apply ih
      obtain ⟨r, hr, hrange⟩ := h
      simp only [List.mem_cons] at hr
      rcases hr with rfl | hr
      · exact absurd hrange hx
      · exact ⟨r, hr, hrange⟩

theorem toInt64_range (n : Nat) :
    -9223372036854775808 ≤ toInt64 n ∧ toInt64 n < 9223372036854775808 := by
  unfold toInt64
  have hlt : n % 18446744073709551616 < 18446744073709551616 := Nat.mod_lt _ (by decide)
  split_ifs <;> omega

theorem toInt64_emod (n : Nat) :
    toInt64 n % 18446744073709551616 = ((n % 18446744073709551616 : Nat) : Int) := by
  unfold toInt64
  have hlt : n % 18446744073709551616 < 18446744073709551616 := Nat.mod_lt _ (by decide)
  split_ifs <;> omega

theorem toInt64_eq_iff (n : Nat) : toInt64 n = (n : Int) ↔ n < 9223372036854775808 := by
  unfold toInt64
  have hlt : n % 18446744073709551616 < 18446744073709551616 := Nat.mod_lt _ (by decide)
  have hle : n % 18446744073709551616 ≤ n := Nat.mod_le _ _
  constructor
  · intro h
    split_ifs at h <;> omega
  · intro h
    have hmod : n % 18446744073709551616 = n := Nat.mod_eq_of_lt (by omega)
    rw [hmod, if_pos h]

theorem FromPtrOr_eq_presentOrZero {n : Nat} [NeZero n] (field : Option (Fin n)) :
    lo.FromPtrOr field 0 = presentOrZero field := by
  cases field <;> rfl

theorem toUint64_val_self (x : Uint64) : toUint64 x.val = x := by
  apply Fin.ext
  exact Nat.mod_eq_of_lt x.isLt

theorem toUint32_val_self (x : Uint32) : toUint32 x.val = x := by
  apply Fin.ext
  exact Nat.mod_eq_of_lt x.isLt

/-- The numeric fields of the query filter that `QueryFilterFromProtoToTigerbeetle` returns. -/
theorem QueryFilterFromProtoToTigerbeetle_fields (f : proto.QueryFilter) (q : types.QueryFilter)
    (h : grpc.QueryFilterFromProtoToTigerbeetle (some f) = (some q, none)) :
    q.UserData64 = lo.FromPtrOr f.UserData64 0 ∧ q.UserData32 = lo.FromPtrOr f.UserData32 0 ∧
      q.Code = toUint16 (lo.FromPtrOr f.Code 0).val ∧ q.Ledger = lo.FromPtrOr f.Ledger 0 ∧
      q.TimestampMin = lo.FromPtrOr f.TimestampMin 0 ∧
      q.TimestampMax = lo.FromPtrOr f.TimestampMax 0 ∧ q.Limit = f.Limit := by
  unfold grpc.QueryFilterFromProtoToTigerbeetle at h
  simp only at h
  split at h
  · simp at h
  · simp only [Prod.mk.injEq, Option.some.injEq, and_true] at h
    subst h
    exact ⟨rfl, rfl, rfl, rfl, rfl, rfl, rfl⟩

/-- The bounds and the limit of the account filter that `AccountFilterFromProtoToTigerbeetle`
returns. -/
theorem AccountFilterFromProtoToTigerbeetle_fields (f : proto.AccountFilter)
    (flt : types.AccountFilter)
    (h : grpc.AccountFilterFromProtoToTigerbeetle (some f) = some (some flt, none)) :
    flt.TimestampMin = lo.FromPtrOr f.TimestampMin 0 ∧
      flt.TimestampMax = lo.FromPtrOr f.TimestampMax 0 ∧ flt.Limit = f.Limit := by
  unfold grpc.AccountFilterFromProtoToTigerbeetle at h
  simp only at h
  split at h
  · simp at h
  · simp at h
  · simp only [Option.some.injEq, Prod.mk.injEq, and_true] at h
    subst h
    exact ⟨toUint64_val_self _, toUint64_val_self _, toUint32_val_self _⟩

theorem presentOrZero_eq_zero_iff {n : Nat} [NeZero n] (field : Option (Fin n)) :
    presentOrZero field = 0 ↔ field = none ∨ field = some 0 := by
  cases field with
  | none => simp [presentOrZero]
  | some x => simp [presentOrZero]

/-- The low 64 bits of a 128-bit counter: the counter modulo 2^64, which is the counter itself
exactly when the counter is below 2^64. -/
theorem toUint64_BigInt (v : types.Uint128) :
    (toUint64 v.BigInt).val = v.val % 2 ^ 64 ∧
      ((toUint64 v.BigInt).val = v.val ↔ v.val < 2 ^ 64) := by
  have hmod : (toUint64 v.BigInt).val = v.val % 2 ^ 64 := by
    rw [BigInt_eq]
    rfl
  refine ⟨hmod, ?_⟩
  rw [hmod]
  constructor
  · intro h
    rw [← h]
    exact Nat.mod_lt _ (by norm_num)
  · intro h
    exact Nat.mod_eq_of_lt h

/-! ## Lemmas on the signed 32-bit conversion and on the zero values of a converted filter -/

theorem toInt32_range (n : Nat) : -2147483648 ≤ toInt32 n ∧ toInt32 n < 2147483648 := by
  unfold toInt32
  have hlt : n % 4294967296 < 4294967296 := Nat.mod_lt _ (by decide)
  split_ifs <;> omega

theorem toInt32_emod (n : Nat) :
    toInt32 n % 4294967296 = ((n % 4294967296 : Nat) : Int) := by
  unfold toInt32
  have hlt : n % 4294967296 < 4294967296 := Nat.mod_lt _ (by decide)
  split_ifs <;> omega

theorem toInt32_eq_iff (n : Nat) : toInt32 n = (n : Int) ↔ n < 2147483648 := by
  unfold toInt32
  have hlt : n % 4294967296 < 4294967296 := Nat.mod_lt _ (by decide)
  have hle : n % 4294967296 ≤ n := Nat.mod_le _ _
  constructor
  · intro h
    split_ifs at h <;> omega
  · intro h
    have hmod : n % 4294967296 = n := Nat.mod_eq_of_lt (by omega)
    rw [hmod, if_pos h]

/-- What a successful run of the ledger client's parser on a non-empty string returns: the
number the string denotes. -/
theorem types_HexStringToUint128_val (s : GoString) (v : types.Uint128)
    (h : types.HexStringToUint128 s = (v, none)) : v.val = hexValue s := by
  by_cases hbad : 32 < s.length ∨ ¬ AllHexDigits s
  · obtain ⟨e, he⟩ := types_HexStringToUint128_of_invalid s hbad
    rw [he] at h
    simp at h
  · push_neg at hbad
    obtain ⟨w, hw, hval⟩ := types_HexStringToUint128_of_digits s hbad.2 hbad.1
    rw [hw] at h
    simp only [Prod.mk.injEq, and_true] at h
    rw [← h, hval]

/-- The `UserData128` and the flag bitmask of the query filter that
`QueryFilterFromProtoToTigerbeetle` returns. -/
theorem QueryFilterFromProtoToTigerbeetle_UserData128_Flags (f : proto.QueryFilter)
    (q : types.QueryFilter)
    (h : grpc.QueryFilterFromProtoToTigerbeetle (some f) = (some q, none)) :
    (f.UserData128 = none → q.UserData128 = types.Uint128.zero) ∧
      (∀ s, f.UserData128 = some s → q.UserData128.val = hexValue s) ∧
      (f.Flags = none → q.Flags.val = 0) ∧
      (∀ fl, f.Flags = some fl → q.Flags.val = if fl.Reversed = some true then 1 else 0) := by
  unfold grpc.QueryFilterFromProtoToTigerbeetle at h
  simp only at h
  split at h
  · simp at h
  · rename_i userData128 heq
    simp only [Prod.mk.injEq, Option.some.injEq, and_true] at h
    subst h
    simp only
    refine ⟨?_, ?_, ?_, ?_⟩
    · intro hnone
      rw [hnone] at heq
      simp only [Prod.mk.injEq, and_true] at heq
      exact heq.symm
    · intro s hs
      rw [hs] at heq
      by_cases hempty : s = []
      · subst hempty
        simp only [ne_eq, not_true_eq_false, if_false, Prod.mk.injEq, and_true] at heq
        rw [← heq]
        rfl
      · simp only [ne_eq, hempty, not_false_eq_true, if_true] at heq
        exact types_HexStringToUint128_val s userData128 heq
    · intro hnone
      rw [hnone]
      rfl
    · intro fl hfl
      rw [hfl]
      obtain ⟨r⟩ := fl
      rcases r with _ | _ | _ <;> rfl

/-- Each of the three low bits of the packed account-filter flags tells its flag. -/
theorem AccountFilterFlags_ToUint32_testBit (fl : types.AccountFilterFlags) :
    fl.ToUint32.val.testBit 0 = fl.Debits ∧ fl.ToUint32.val.testBit 1 = fl.Credits ∧
      fl.ToUint32.val.testBit 2 = fl.Reversed := by
  obtain ⟨d, c, r⟩ := fl
  cases d <;> cases c <;> cases r <;> decide

/-- The packed account-filter flags are 0 exactly when no flag is set. -/
theorem AccountFilterFlags_ToUint32_eq_zero_iff (fl : types.AccountFilterFlags) :
    fl.ToUint32.val = 0 ↔ fl.Debits = false ∧ fl.Credits = false ∧ fl.Reversed = false := by
  obtain ⟨d, c, r⟩ := fl
  cases d <;> cases c <;> cases r <;> decide

/-! ## The claims of the specification -/

set_option maxRecDepth 8192

namespace grpc

/-- Claim C1. For every domain Transfer, the wire `PendingId` is absent exactly when the domain
pending id is the all-zero 128-bit value, and for a nonzero pending id the wire `PendingId` is
present and is the hex rendering of the pending id, which is not the empty string. -/
theorem TransferToProtoTransfer_PendingId (t : types.Transfer) :
    ((TransferToProtoTransfer t).PendingId = none ↔ t.PendingID = types.Uint128.zero) ∧
      (t.PendingID ≠ types.Uint128.zero →
        (TransferToProtoTransfer t).PendingId = some t.PendingID.String ∧
          t.PendingID.String ≠ [] ∧ hexValue t.PendingID.String = t.PendingID.val) := by
  have hne := String_ne_nil t.PendingID
  by_cases hz : t.PendingID = types.Uint128.zero
  · simp [TransferToProtoTransfer, hz]
  · simp [TransferToProtoTransfer, hz, hne, hexValue_String]

/-- A transfer with pending id 255 has the wire `PendingId` `"ff"`. -/
theorem TransferToProtoTransfer_PendingId_witness :
    (TransferToProtoTransfer { zeroTransfer with PendingID := ⟨255, by decide⟩ }).PendingId
        = some [102, 102] ∧
      (TransferToProtoTransfer zeroTransfer).PendingId = none := by
  constructor
  · have h := (TransferToProtoTransfer_PendingId
      { zeroTransfer with PendingID := ⟨255, by decide⟩ }).2 (by decide)
    rw [h.1]
    decide
  · exact (TransferToProtoTransfer_PendingId zeroTransfer).1.mpr rfl

/-- Claim C2, evaluated on the code: the account whose flag bitset has only the Imported bit
(bit 4) has the Imported flag set in the ledger client, and its wire flags are those of the
account with no flag at all, every populated wire flag being false; the Imported flag is lost. -/
theorem AccountToProtoAccount_Imported_lost :
    ({ zeroAccount with Flags := 16 } : types.Account).AccountFlags.Imported = true ∧
      zeroAccount.AccountFlags.Imported = false ∧
      (AccountToProtoAccount { zeroAccount with Flags := 16 }).Flags
        = (AccountToProtoAccount zeroAccount).Flags ∧
      (AccountToProtoAccount { zeroAccount with Flags := 16 }).Flags
        = some { Linked := some false, DebitsMustNotExceedCredits := some false,
                 CreditsMustNotExceedDebits := some false, History := some false,
                 Closed := some false } := by
  decide

/-- Claim C3, as the code has it. When every outcome index is a valid position of the submitted
transfers, `ResultsToReply` returns a sequence as long as the outcome sequence whose k-th item
is built from the k-th outcome: the hex id of the transfer at the outcome's index, and the
index and the result code converted to the signed 32-bit wire types, that is the integer
between -2^31 and 2^31 - 1 that agrees with the value modulo 2^32, which is the value itself
exactly when the value is below 2^31. -/
theorem ResultsToReply_items (results : List types.TransferEventResult)
    (transfers : List types.Transfer) (err : Option Error)
    (h : ∀ r ∈ results, r.Index.val < transfers.length) :
    ∃ replies, ResultsToReply results transfers err = some replies ∧
      replies.length = results.length ∧
      ∀ (k : Nat) (r : types.TransferEventResult), results[k]? = some r →
        ∃ (t : types.Transfer) (item : proto.CreateTransfersReplyItem),
          transfers[r.Index.val]? = some t ∧ replies[k]? = some item ∧
          item.Id = t.ID.String ∧
          item.Index = toInt32 r.Index.val ∧ item.Result = toInt32 r.Result.val ∧
          (r.Index.val < 2147483648 → item.Index = (r.Index.val : Int)) ∧
          (r.Result.val < 2147483648 → item.Result = (r.Result.val : Int)) ∧
          (-2147483648 ≤ item.Index ∧ item.Index < 2147483648 ∧
            item.Index % 4294967296 = (r.Index.val : Int)) ∧
          (-2147483648 ≤ item.Result ∧ item.Result < 2147483648 ∧
            item.Result % 4294967296 = (r.Result.val : Int)) ∧
          (item.Index = (r.Index.val : Int) ↔ r.Index.val < 2147483648) ∧
          (item.Result = (r.Result.val : Int) ↔ r.Result.val < 2147483648) := by
  obtain ⟨out, hout, hlen, hitems⟩ := ResultsToReply_loop_valid transfers results h []
  refine ⟨out, by simpa [ResultsToReply] using hout, hlen, ?_⟩
  intro k r hk
  obtain ⟨t, ht, hitem⟩ := hitems k r hk
  have himod : r.Index.val % 4294967296 = r.Index.val := Nat.mod_eq_of_lt r.Index.isLt
  have hrmod : r.Result.val % 4294967296 = r.Result.val := Nat.mod_eq_of_lt r.Result.isLt
  have hie := toInt32_emod r.Index.val
  have hre := toInt32_emod r.Result.val
  rw [himod] at hie
  rw [hrmod] at hre
  exact ⟨t, replyItemOf r t, ht, hitem, rfl, rfl, rfl,
    fun hi => toInt32_of_lt _ hi, fun hi => toInt32_of_lt _ hi,
    ⟨(toInt32_range _).1, (toInt32_range _).2, hie⟩,
    ⟨(toInt32_range _).1, (toInt32_range _).2, hre⟩,
    toInt32_eq_iff _, toInt32_eq_iff _⟩

/-- The example of the specification: transfers `[T0, T1, T2]` and the outcomes
`[{1, R1}, {0, R0}]` give `[{T1.id, R1}, {T0.id, R0}]`. -/
theorem ResultsToReply_items_witness :
    (∀ r ∈ outcomesEx, r.Index.val < submittedEx.length) ∧
      (∃ replies, ResultsToReply outcomesEx submittedEx none = some replies ∧
        replies.length = outcomesEx.length) ∧
      ResultsToReply outcomesEx submittedEx none
        = some [{ Index := 1, Result := 21, Id := [97, 49] },
                { Index := 0, Result := 46, Id := [97, 48] }] :=
  ⟨by decide,
    (ResultsToReply_items outcomesEx submittedEx none (by decide)).imp
      (fun _ hr => ⟨hr.1, hr.2.1⟩),
    by decide⟩

/-- Claim C3 as stated fails: with one submitted transfer, the outcome with the index 0, a valid
position, and the result code 2^32 - 1 gives a reply item whose result is -1, which is not the
result code of the outcome. -/
theorem ResultsToReply_items_counterexample :
    (∀ r ∈ ([{ Index := 0, Result := 4294967295 }] : List types.TransferEventResult),
        r.Index.val < [transferWithID 160 (by decide)].length) ∧
      ResultsToReply [{ Index := 0, Result := 4294967295 }] [transferWithID 160 (by decide)] none
        = some [{ Index := 0, Result := -1, Id := [97, 48] }] ∧
      ((-1 : Int) ≠ ((4294967295 : Uint32).val : Int)) := by
  decide

/-- Claim C4. For every valid 128-bit hex string (1 to 32 hexadecimal digits of either case)
`HexStringToUint128` succeeds with the number the string denotes, and the hex rendering of the
parsed value is a non-empty string of hexadecimal digits that denotes the same number as the
input, whatever the case of its letters and its leading zeros. -/
theorem HexStringToUint128_render (h : GoString) (hv : ValidHex128 h) :
    ∃ v, HexStringToUint128 h = (some v, none) ∧ v.val = hexValue h ∧
      hexValue v.String = hexValue h ∧ AllHexDigits v.String ∧ v.String ≠ [] := by
  obtain ⟨hpos, hlen, hd⟩ := hv
  obtain ⟨v, hparse, hval⟩ := types_HexStringToUint128_of_digits h hd hlen
  have hne : h ≠ [] := by
    intro h0
    rw [h0] at hpos
    simp at hpos
  refine ⟨v, ?_, hval, ?_, AllHexDigits_String v, String_ne_nil v⟩
  · simp only [HexStringToUint128, if_neg hne, hparse]
  · rw [hexValue_String, hval]

/-- The string `"01aB"` parses to 427, which is rendered as `"1ab"`. -/
theorem HexStringToUint128_render_witness :
    (∃ v, HexStringToUint128 [48, 49, 97, 66] = (some v, none) ∧
      v.val = hexValue [48, 49, 97, 66] ∧
      hexValue v.String = hexValue [48, 49, 97, 66] ∧ AllHexDigits v.String ∧ v.String ≠ []) ∧
      hexValue [48, 49, 97, 66] = 427 ∧
      (types.Uint128.String ⟨427, by decide⟩) = [49, 97, 98] :=
  ⟨HexStringToUint128_render [48, 49, 97, 66] (by decide), by decide, by decide⟩

/-- Claim C5. `HexStringToUint128` of the empty string returns the zero 128-bit value and no
error. -/
theorem HexStringToUint128_empty :
    HexStringToUint128 [] = (some types.Uint128.zero, none) ∧ types.Uint128.zero.val = 0 :=
  ⟨rfl, rfl⟩

/-- Claim C6. For every non-empty string that is not valid 128-bit hex (it holds a byte that is
no hexadecimal digit, or it has more than 32 bytes) `HexStringToUint128` returns an error and a
nil result, and the error is the one the parser of the ledger client returned. -/
theorem HexStringToUint128_invalid (s : GoString) (hne : s ≠ []) (hinv : ¬ ValidHex128 s) :
    ∃ e, HexStringToUint128 s = (none, some e) ∧ (types.HexStringToUint128 s).2 = some e := by
  have hcase : 32 < s.length ∨ ¬ AllHexDigits s := by
    by_contra hc
    push_neg at hc
    apply hinv
    refine ⟨?_, hc.1, hc.2⟩
    cases s with
    | nil => exact absurd rfl hne
    | cons c s => simp
  obtain ⟨e, he⟩ := types_HexStringToUint128_of_invalid s hcase
  exact ⟨e, by simp only [HexStringToUint128, if_neg hne, he], by rw [he]⟩

/-- The string `"not-hex"` is refused with the error for its first byte, `'n'`. -/
theorem HexStringToUint128_invalid_witness :
    (∃ e, HexStringToUint128 [110, 111, 116, 45, 104, 101, 120] = (none, some e) ∧
      (types.HexStringToUint128 [110, 111, 116, 45, 104, 101, 120]).2 = some e) ∧
      HexStringToUint128 [110, 111, 116, 45, 104, 101, 120]
        = (none, some (Error.invalidByte 110)) :=
  ⟨HexStringToUint128_invalid [110, 111, 116, 45, 104, 101, 120] (by decide) (by decide),
    by decide⟩

/-- Claim C7. For every non-nil wire AccountFilter, `AccountFilterFromProtoToTigerbeetle`
returns an error exactly when the account id is non-empty and not valid 128-bit hex; with an
error it returns a nil filter; it returns either an error or a filter; and the filter it
returns has the parsed account id, the number the string denotes, zero for the empty string. -/
theorem AccountFilterFromProtoToTigerbeetle_AccountId (f : proto.AccountFilter) :
    ((∃ r, AccountFilterFromProtoToTigerbeetle (some f) = some r ∧ r.2 ≠ none) ↔
        (f.AccountId ≠ [] ∧ ¬ ValidHex128 f.AccountId)) ∧
      (∀ r, AccountFilterFromProtoToTigerbeetle (some f) = some r → r.2 ≠ none → r.1 = none) ∧
      ((∃ e, AccountFilterFromProtoToTigerbeetle (some f) = some (none, some e)) ∨
        (∃ flt, AccountFilterFromProtoToTigerbeetle (some f) = some (some flt, none))) ∧
      (∀ flt, AccountFilterFromProtoToTigerbeetle (some f) = some (some flt, none) →
        (HexStringToUint128 f.AccountId).1 = some flt.AccountID ∧
          flt.AccountID.val = hexValue f.AccountId ∧
          (f.AccountId = [] → flt.AccountID = types.Uint128.zero)) := by
  rcases HexStringToUint128_cases f.AccountId with ⟨hok, v, hparse, hval, hzero⟩ | ⟨hbad, e, hparse⟩
  · have hrun : ∃ flt, AccountFilterFromProtoToTigerbeetle (some f) = some (some flt, none) ∧
        flt.AccountID = v := by
      simp only [AccountFilterFromProtoToTigerbeetle, hparse]
      exact ⟨_, rfl, rfl⟩
    obtain ⟨flt, hflt, hid⟩ := hrun
    refine ⟨⟨?_, ?_⟩, ?_, Or.inr ⟨flt, hflt⟩, ?_⟩
    · rintro ⟨r, hr, herr⟩
      rw [hflt] at hr
      cases hr
      exact absurd rfl herr
    · rintro ⟨hne, hnv⟩
      rcases hok with h | h
      · exact absurd h hne
      · exact absurd h hnv
    · intro r hr herr
      rw [hflt] at hr
      cases hr
      exact absurd rfl herr
    · intro flt' hflt'
      rw [hflt] at hflt'
      cases hflt'
      rw [hid, hparse]
      exact ⟨rfl, hval, hzero⟩
  · have hrun : AccountFilterFromProtoToTigerbeetle (some f) = some (none, some e) := by
      simp only [AccountFilterFromProtoToTigerbeetle, hparse]
    refine ⟨⟨fun _ => hbad, fun _ => ⟨_, hrun, by simp⟩⟩, ?_, Or.inl ⟨e, hrun⟩, ?_⟩
    · intro r hr _
      rw [hrun] at hr
      cases hr
      rfl
    · intro flt hflt
      rw [hrun] at hflt
      cases hflt

/-- The account id `"not-hex"` makes the conversion fail with a nil filter, and the account id
`"1f"` gives a filter with the account id 31. -/
theorem AccountFilterFromProtoToTigerbeetle_AccountId_witness :
    (∃ r, AccountFilterFromProtoToTigerbeetle
        (some (accountFilterOf [110, 111, 116, 45, 104, 101, 120] none)) = some r ∧ r.2 ≠ none) ∧
      AccountFilterFromProtoToTigerbeetle
        (some (accountFilterOf [110, 111, 116, 45, 104, 101, 120] none))
          = some (none, some (Error.invalidByte 110)) ∧
      (AccountFilterFromProtoToTigerbeetle (some (accountFilterOf [49, 102] none))).map
        (fun r => r.1.map (fun flt => flt.AccountID.val)) = some (some 31) :=
  ⟨(AccountFilterFromProtoToTigerbeetle_AccountId
      (accountFilterOf [110, 111, 116, 45, 104, 101, 120] none)).1.mpr ⟨by decide, by decide⟩,
    by decide, by decide⟩

/-- Claim C8. For every non-nil wire QueryFilter: with `UserData128` absent or empty the
conversion succeeds with `UserData128` zero; with a valid 128-bit hex string it succeeds with
the number the string denotes; with a non-empty string that is not valid 128-bit hex it returns
an error and a nil filter. -/
theorem QueryFilterFromProtoToTigerbeetle_UserData128 (f : proto.QueryFilter) :
    ((f.UserData128 = none ∨ f.UserData128 = some []) →
        ∃ q, QueryFilterFromProtoToTigerbeetle (some f) = (some q, none) ∧
          q.UserData128 = types.Uint128.zero) ∧
      (∀ s, f.UserData128 = some s → ValidHex128 s →
        ∃ q, QueryFilterFromProtoToTigerbeetle (some f) = (some q, none) ∧
          q.UserData128.val = hexValue s ∧
          (HexStringToUint128 s).1 = some q.UserData128) ∧
      (∀ s, f.UserData128 = some s → s ≠ [] → ¬ ValidHex128 s →
        ∃ e, QueryFilterFromProtoToTigerbeetle (some f) = (none, some e) ∧
          (types.HexStringToUint128 s).2 = some e) := by
  refine ⟨?_, ?_, ?_⟩
  · rintro (h | h) <;> simp only [QueryFilterFromProtoToTigerbeetle, h] <;>
      exact ⟨_, rfl, rfl⟩
  · intro s hs hv
    obtain ⟨v, hparse, hval⟩ := types_HexStringToUint128_of_digits s hv.2.2 hv.2.1
    have hne : s ≠ [] := by
      intro h0
      have := hv.1
      rw [h0] at this
      simp at this
    simp only [QueryFilterFromProtoToTigerbeetle, hs, ne_eq, hne, not_false_eq_true, if_true,
      hparse]
    refine ⟨_, rfl, hval, ?_⟩
    simp only [HexStringToUint128, if_neg hne, hparse]
  · intro s hs hne hnv
    have hcase : 32 < s.length ∨ ¬ AllHexDigits s := by
      by_contra hc
      push_neg at hc
      apply hnv
      refine ⟨?_, hc.1, hc.2⟩
      cases s with
      | nil => exact absurd rfl hne
      | cons c s => simp
    obtain ⟨e, he⟩ := types_HexStringToUint128_of_invalid s hcase
    exact ⟨e, by
      simp only [QueryFilterFromProtoToTigerbeetle, hs, ne_eq, hne, not_false_eq_true, if_true,
        he], by rw [he]⟩

/-- The conversion of a query filter without `UserData128`, with the empty string, with `"1f"`
and with `"not-hex"`. -/
theorem QueryFilterFromProtoToTigerbeetle_UserData128_witness :
    (∃ q, QueryFilterFromProtoToTigerbeetle (some (queryFilterOf none)) = (some q, none) ∧
        q.UserData128 = types.Uint128.zero) ∧
      (∃ q, QueryFilterFromProtoToTigerbeetle (some (queryFilterOf (some []))) = (some q, none) ∧
        q.UserData128 = types.Uint128.zero) ∧
      (∃ q, QueryFilterFromProtoToTigerbeetle (some (queryFilterOf (some [49, 102])))
          = (some q, none) ∧ q.UserData128.val = hexValue [49, 102] ∧
          (HexStringToUint128 [49, 102]).1 = some q.UserData128) ∧
      hexValue [49, 102] = 31 ∧
      (∃ e, QueryFilterFromProtoToTigerbeetle
          (some (queryFilterOf (some [110, 111, 116, 45, 104, 101, 120]))) = (none, some e) ∧
          (types.HexStringToUint128 [110, 111, 116, 45, 104, 101, 120]).2 = some e) :=
  ⟨(QueryFilterFromProtoToTigerbeetle_UserData128 (queryFilterOf none)).1 (Or.inl rfl),
    (QueryFilterFromProtoToTigerbeetle_UserData128 (queryFilterOf (some []))).1 (Or.inr rfl),
    (QueryFilterFromProtoToTigerbeetle_UserData128 (queryFilterOf (some [49, 102]))).2.1
      [49, 102] rfl (by decide),
    by decide,
    (QueryFilterFromProtoToTigerbeetle_UserData128
      (queryFilterOf (some [110, 111, 116, 45, 104, 101, 120]))).2.2
      [110, 111, 116, 45, 104, 101, 120] rfl (by decide) (by decide)⟩

/-- Claim C9. For every wire AccountFilter that converts successfully, the flag bitmask of the
result is the OR of bit 0 for Debits, bit 1 for Credits and bit 2 for Reversed, each taken
exactly when the flag is present and true in the wire flags; so each of the three low bits
tells its flag, no bit from position 3 on is set, the bitmask is below 8, and it is 0 when the
wire flags are null or when no flag is present and true. -/
theorem AccountFilterFromProtoToTigerbeetle_bitmask (f : proto.AccountFilter)
    (flt : types.AccountFilter)
    (h : AccountFilterFromProtoToTigerbeetle (some f) = some (some flt, none)) :
    flt.Flags.val
        = (if flagOn f.Flags (fun fl => fl.Debits) then 1 else 0) |||
            (if flagOn f.Flags (fun fl => fl.Credits) then 2 else 0) |||
            (if flagOn f.Flags (fun fl => fl.Reversed) then 4 else 0) ∧
      flt.Flags.val.testBit 0 = flagOn f.Flags (fun fl => fl.Debits) ∧
      flt.Flags.val.testBit 1 = flagOn f.Flags (fun fl => fl.Credits) ∧
      flt.Flags.val.testBit 2 = flagOn f.Flags (fun fl => fl.Reversed) ∧
      (∀ i, 3 ≤ i → flt.Flags.val.testBit i = false) ∧
      flt.Flags.val < 8 ∧
      (f.Flags = none → flt.Flags.val = 0) ∧
      (flagOn f.Flags (fun fl => fl.Debits) = false →
        flagOn f.Flags (fun fl => fl.Credits) = false →
        flagOn f.Flags (fun fl => fl.Reversed) = false → flt.Flags.val = 0) := by
  have hflags := AccountFilterFromProtoToTigerbeetle_Flags f flt h
  have hval := AccountFilterFlags_ToUint32_val
    (types.AccountFilterFlags.mk (flagOn f.Flags (fun fl => fl.Debits))
      (flagOn f.Flags (fun fl => fl.Credits)) (flagOn f.Flags (fun fl => fl.Reversed)))
  rw [← hflags] at hval
  simp only at hval
  have hnone : f.Flags = none → flt.Flags.val = 0 := by
    intro hf
    rw [hval, hf]
    rfl
  have hlt : flt.Flags.val < 8 := by
    rw [hval]
    cases flagOn f.Flags (fun fl => fl.Debits) <;> cases flagOn f.Flags (fun fl => fl.Credits) <;>
      cases flagOn f.Flags (fun fl => fl.Reversed) <;> decide
  refine ⟨hval, ?_, ?_, ?_, ?_, hlt, hnone, ?_⟩
  · rw [hval]
    cases flagOn f.Flags (fun fl => fl.Debits) <;> cases flagOn f.Flags (fun fl => fl.Credits) <;>
      cases flagOn f.Flags (fun fl => fl.Reversed) <;> decide
  · rw [hval]
    cases flagOn f.Flags (fun fl => fl.Debits) <;> cases flagOn f.Flags (fun fl => fl.Credits) <;>
      cases flagOn f.Flags (fun fl => fl.Reversed) <;> decide
  · rw [hval]
    cases flagOn f.Flags (fun fl => fl.Debits) <;> cases flagOn f.Flags (fun fl => fl.Credits) <;>
      cases flagOn f.Flags (fun fl => fl.Reversed) <;> decide
  · intro i hi
    apply Nat.testBit_lt_two_pow
    calc flt.Flags.val < 8 := hlt
      _ = 2 ^ 3 := by norm_num
      _ ≤ 2 ^ i := Nat.pow_le_pow_right (by decide) hi
  · intro hd hc hr
    rw [hval, hd, hc, hr]
    rfl

/-- A filter with Credits and Reversed true and Debits absent converts to the bitmask 6, which
is below 8 and has bit 0 clear. -/
theorem AccountFilterFromProtoToTigerbeetle_bitmask_witness :
    AccountFilterFromProtoToTigerbeetle (some (accountFilterOf []
        (some { Debits := none, Credits := some true, Reversed := some true })))
        = some (some (types.AccountFilter.mk types.Uint128.zero 0 0 0 6), none) ∧
      (types.AccountFilter.mk types.Uint128.zero 0 0 0 6).Flags.val < 8 ∧
      (types.AccountFilter.mk types.Uint128.zero 0 0 0 6).Flags.val.testBit 0 = false :=
  ⟨by decide,
    (AccountFilterFromProtoToTigerbeetle_bitmask
      (accountFilterOf [] (some { Debits := none, Credits := some true, Reversed := some true }))
      (types.AccountFilter.mk types.Uint128.zero 0 0 0 6) (by decide)).2.2.2.2.2.1,
    (AccountFilterFromProtoToTigerbeetle_bitmask
      (accountFilterOf [] (some { Debits := none, Credits := some true, Reversed := some true }))
      (types.AccountFilter.mk types.Uint128.zero 0 0 0 6) (by decide)).2.1⟩

/-- Claim C10, as the code has it. For every domain Account, each of the four wire balance
counters is the 128-bit domain counter modulo 2^64, hence the domain counter itself when that
is below 2^64, and `UserData64`, `UserData32`, `Ledger`, `Code` and `Timestamp` are copied
without change of value. -/
theorem AccountToProtoAccount_numeric (a : types.Account) :
    ((AccountToProtoAccount a).DebitsPending.val = a.DebitsPending.val % 2 ^ 64 ∧
        (AccountToProtoAccount a).DebitsPosted.val = a.DebitsPosted.val % 2 ^ 64 ∧
        (AccountToProtoAccount a).CreditsPending.val = a.CreditsPending.val % 2 ^ 64 ∧
        (AccountToProtoAccount a).CreditsPosted.val = a.CreditsPosted.val % 2 ^ 64) ∧
      ((a.DebitsPending.val < 2 ^ 64 →
          (AccountToProtoAccount a).DebitsPending.val = a.DebitsPending.val) ∧
        (a.DebitsPosted.val < 2 ^ 64 →
          (AccountToProtoAccount a).DebitsPosted.val = a.DebitsPosted.val) ∧
        (a.CreditsPending.val < 2 ^ 64 →
          (AccountToProtoAccount a).CreditsPending.val = a.CreditsPending.val) ∧
        (a.CreditsPosted.val < 2 ^ 64 →
          (AccountToProtoAccount a).CreditsPosted.val = a.CreditsPosted.val)) ∧
      (AccountToProtoAccount a).UserData64.val = a.UserData64.val ∧
      (AccountToProtoAccount a).UserData32.val = a.UserData32.val ∧
      (AccountToProtoAccount a).Ledger.val = a.Ledger.val ∧
      (AccountToProtoAccount a).Code.val = a.Code.val ∧
      (AccountToProtoAccount a).Timestamp.val = a.Timestamp.val := by
  have hmod : ∀ v : types.Uint128, (toUint64 v.BigInt).val = v.val % 2 ^ 64 := by
    intro v
    rw [BigInt_eq]
    rfl
  have hcode : a.Code.val % 4294967296 = a.Code.val :=
    Nat.mod_eq_of_lt (by have := a.Code.isLt; omega)
  have hts : a.Timestamp.val % 18446744073709551616 = a.Timestamp.val :=
    Nat.mod_eq_of_lt a.Timestamp.isLt
  refine ⟨⟨hmod _, hmod _, hmod _, hmod _⟩, ⟨?_, ?_, ?_, ?_⟩, rfl, rfl, rfl, ?_, ?_⟩
  · intro hlt
    exact (hmod _).trans (Nat.mod_eq_of_lt hlt)
  · intro hlt
    exact (hmod _).trans (Nat.mod_eq_of_lt hlt)
  · intro hlt
    exact (hmod _).trans (Nat.mod_eq_of_lt hlt)
  · intro hlt
    exact (hmod _).trans (Nat.mod_eq_of_lt hlt)
  · exact hcode
  · exact hts

/-- An account whose `DebitsPending` is 5 has the wire counter 5. -/
theorem AccountToProtoAccount_numeric_witness :
    (AccountToProtoAccount { zeroAccount with DebitsPending := ⟨5, by decide⟩ }).DebitsPending.val
      = 5 :=
  (AccountToProtoAccount_numeric { zeroAccount with DebitsPending := ⟨5, by decide⟩ }).2.1.1
    (by decide)

/-- Claim C10 as stated fails: the account whose `DebitsPending` counter is 2^64 has the wire
counter 0, which is not the domain counter. -/
theorem AccountToProtoAccount_numeric_counterexample :
    accountDebitsPending2p64.DebitsPending.val = 18446744073709551616 ∧
      (AccountToProtoAccount accountDebitsPending2p64).DebitsPending.val = 0 ∧
      (AccountToProtoAccount accountDebitsPending2p64).DebitsPending.val
        ≠ accountDebitsPending2p64.DebitsPending.val := by
  decide

/-- Claim C11. For every domain Transfer, the wire transfer flags are present and each of the
nine flags is present and tells whether its bit, positions 0 to 8 in the order Linked, Pending,
PostPendingTransfer, VoidPendingTransfer, BalancingDebit, BalancingCredit, ClosingDebit,
ClosingCredit, Imported, is set in the flag bitset; two transfers whose bitsets agree on the
bits 0 to 8 have the same wire flags. -/
theorem TransferToProtoTransfer_TransferFlags (t : types.Transfer) :
    (TransferToProtoTransfer t).TransferFlags
        = some
          { Linked := some (t.Flags.val.testBit 0)
            Pending := some (t.Flags.val.testBit 1)
            PostPendingTransfer := some (t.Flags.val.testBit 2)
            VoidPendingTransfer := some (t.Flags.val.testBit 3)
            BalancingDebit := some (t.Flags.val.testBit 4)
            BalancingCredit := some (t.Flags.val.testBit 5)
            ClosingDebit := some (t.Flags.val.testBit 6)
            ClosingCredit := some (t.Flags.val.testBit 7)
            Imported := some (t.Flags.val.testBit 8) } ∧
      ∀ u : types.Transfer, u.Flags.val % 2 ^ 9 = t.Flags.val % 2 ^ 9 →
        (TransferToProtoTransfer u).TransferFlags = (TransferToProtoTransfer t).TransferFlags := by
  have hflags : ∀ x : types.Transfer, (TransferToProtoTransfer x).TransferFlags
      = some
        { Linked := some (x.Flags.val.testBit 0)
          Pending := some (x.Flags.val.testBit 1)
          PostPendingTransfer := some (x.Flags.val.testBit 2)
          VoidPendingTransfer := some (x.Flags.val.testBit 3)
          BalancingDebit := some (x.Flags.val.testBit 4)
          BalancingCredit := some (x.Flags.val.testBit 5)
          ClosingDebit := some (x.Flags.val.testBit 6)
          ClosingCredit := some (x.Flags.val.testBit 7)
          Imported := some (x.Flags.val.testBit 8) } := by
    intro x
    simp only [TransferToProtoTransfer, types.Transfer.TransferFlags, lo.ToPtr,
      shiftRight_and_one_eq_testBit]
  refine ⟨hflags t, ?_⟩
  intro u hu
  have hbit : ∀ k, k < 9 → u.Flags.val.testBit k = t.Flags.val.testBit k := by
    intro k hk
    have h1 := Nat.testBit_mod_two_pow u.Flags.val 9 k
    have h2 := Nat.testBit_mod_two_pow t.Flags.val 9 k
    rw [hu] at h1
    simp only [hk, decide_True, Bool.true_and] at h1 h2
    rw [← h1, ← h2]
  rw [hflags u, hflags t, hbit 0 (by decide), hbit 1 (by decide), hbit 2 (by decide),
    hbit 3 (by decide), hbit 4 (by decide), hbit 5 (by decide), hbit 6 (by decide),
    hbit 7 (by decide), hbit 8 (by decide)]

/-- The transfers with the flag bitsets 258 and 258 + 512 (bits 1 and 8, and bit 9 on top) have
the same wire flags, with Pending and Imported true. -/
theorem TransferToProtoTransfer_TransferFlags_witness :
    (TransferToProtoTransfer { zeroTransfer with Flags := 770 }).TransferFlags
        = (TransferToProtoTransfer { zeroTransfer with Flags := 258 }).TransferFlags ∧
      (TransferToProtoTransfer { zeroTransfer with Flags := 258 }).TransferFlags
        = some
          { Linked := some false, Pending := some true, PostPendingTransfer := some false,
            VoidPendingTransfer := some false, BalancingDebit := some false,
            BalancingCredit := some false, ClosingDebit := some false,
            ClosingCredit := some false, Imported := some true } :=
  ⟨(TransferToProtoTransfer_TransferFlags { zeroTransfer with Flags := 258 }).2
      { zeroTransfer with Flags := 770 } (by decide),
    by decide⟩

/-- Claim C12. For every non-nil wire QueryFilter that converts successfully, `UserData64`,
`UserData32`, `Ledger`, `TimestampMin` and `TimestampMax` of the result are the wire value when
the wire field is present and 0 when it is absent, and `Limit` is the wire limit; for every
non-nil wire AccountFilter that converts successfully, `TimestampMin` and `TimestampMax` are the
wire value when present and 0 when absent. -/
theorem FilterFromProtoToTigerbeetle_optional_fields :
    (∀ (f : proto.QueryFilter) (q : types.QueryFilter),
        QueryFilterFromProtoToTigerbeetle (some f) = (some q, none) →
          q.UserData64 = presentOrZero f.UserData64 ∧
            q.UserData32 = presentOrZero f.UserData32 ∧
            q.Ledger = presentOrZero f.Ledger ∧
            q.TimestampMin = presentOrZero f.TimestampMin ∧
            q.TimestampMax = presentOrZero f.TimestampMax ∧
            q.Limit = f.Limit) ∧
      (∀ (g : proto.AccountFilter) (flt : types.AccountFilter),
        AccountFilterFromProtoToTigerbeetle (some g) = some (some flt, none) →
          flt.TimestampMin = presentOrZero g.TimestampMin ∧
            flt.TimestampMax = presentOrZero g.TimestampMax) := by
  constructor
  · intro f q h
    obtain ⟨h64, h32, _, hl, hmin, hmax, hlim⟩ := QueryFilterFromProtoToTigerbeetle_fields f q h
    simp only [FromPtrOr_eq_presentOrZero] at h64 h32 hl hmin hmax
    exact ⟨h64, h32, hl, hmin, hmax, hlim⟩
  · intro g flt h
    obtain ⟨hmin, hmax, _⟩ := AccountFilterFromProtoToTigerbeetle_fields g flt h
    simp only [FromPtrOr_eq_presentOrZero] at hmin hmax
    exact ⟨hmin, hmax⟩

/-- A query filter with `UserData64` 7, `TimestampMax` 9 and limit 3 and an account filter with
`TimestampMin` 5 convert to these values, with 0 for the absent fields. -/
theorem FilterFromProtoToTigerbeetle_optional_fields_witness :
    ((types.QueryFilter.mk types.Uint128.zero 7 0 0 0 0 9 3 0).UserData64
          = presentOrZero (some 7) ∧
        (types.QueryFilter.mk types.Uint128.zero 7 0 0 0 0 9 3 0).UserData32
          = presentOrZero none ∧
        (types.QueryFilter.mk types.Uint128.zero 7 0 0 0 0 9 3 0).Ledger = presentOrZero none ∧
        (types.QueryFilter.mk types.Uint128.zero 7 0 0 0 0 9 3 0).TimestampMin
          = presentOrZero none ∧
        (types.QueryFilter.mk types.Uint128.zero 7 0 0 0 0 9 3 0).TimestampMax
          = presentOrZero (some 9) ∧
        (types.QueryFilter.mk types.Uint128.zero 7 0 0 0 0 9 3 0).Limit = 3) ∧
      ((types.AccountFilter.mk types.Uint128.zero 5 0 0 0).TimestampMin
          = presentOrZero (some 5) ∧
        (types.AccountFilter.mk types.Uint128.zero 5 0 0 0).TimestampMax = presentOrZero none) :=
  ⟨FilterFromProtoToTigerbeetle_optional_fields.1
      { queryFilterOf none with UserData64 := some 7, TimestampMax := some 9, Limit := 3 }
      (types.QueryFilter.mk types.Uint128.zero 7 0 0 0 0 9 3 0) (by decide),
    FilterFromProtoToTigerbeetle_optional_fields.2
      { accountFilterOf [] none with TimestampMin := some 5 }
      (types.AccountFilter.mk types.Uint128.zero 5 0 0 0) (by decide)⟩

/-- Claim C13, as the code has it. In the conversions to the wire every optional wire field other
than `PendingId` is always present, whatever the domain value: the `Timestamp` of a transfer
(it holds the domain timestamp, also when that is 0), the flags record of a transfer and of an
account and every flag in it. In the conversions from the wire, for every wire QueryFilter or
AccountFilter that converts successfully, the domain field of an optional wire field is at its
zero value exactly when the wire field is absent or present with a value that converts to
zero: the value 0 for `UserData64`, `UserData32`, `Ledger`, `TimestampMin` and `TimestampMax`,
a multiple of 65536 for `Code`, a string that denotes 0 (the empty string is one) for
`UserData128`, and a flags record in which no flag is present and true for `Flags`; and the
bit of a single flag of an AccountFilter is clear exactly when the flags record is absent or
the flag is absent or false. So an absent field always gives the zero value. -/
theorem optional_fields_zero :
    (∀ t : types.Transfer,
        (TransferToProtoTransfer t).Timestamp = some t.Timestamp ∧
          ∃ fl, (TransferToProtoTransfer t).TransferFlags = some fl ∧
            fl.Linked ≠ none ∧ fl.Pending ≠ none ∧ fl.PostPendingTransfer ≠ none ∧
            fl.VoidPendingTransfer ≠ none ∧ fl.BalancingDebit ≠ none ∧
            fl.BalancingCredit ≠ none ∧ fl.ClosingDebit ≠ none ∧ fl.ClosingCredit ≠ none ∧
            fl.Imported ≠ none) ∧
      (∀ a : types.Account,
        ∃ fl, (AccountToProtoAccount a).Flags = some fl ∧
          fl.Linked ≠ none ∧ fl.DebitsMustNotExceedCredits ≠ none ∧
          fl.CreditsMustNotExceedDebits ≠ none ∧ fl.History ≠ none ∧ fl.Closed ≠ none) ∧
      (∀ (f : proto.QueryFilter) (q : types.QueryFilter),
        QueryFilterFromProtoToTigerbeetle (some f) = (some q, none) →
          (q.TimestampMin = 0 ↔ f.TimestampMin = none ∨ f.TimestampMin = some 0) ∧
            (q.TimestampMax = 0 ↔ f.TimestampMax = none ∨ f.TimestampMax = some 0) ∧
            (q.UserData64 = 0 ↔ f.UserData64 = none ∨ f.UserData64 = some 0) ∧
            (q.UserData32 = 0 ↔ f.UserData32 = none ∨ f.UserData32 = some 0) ∧
            (q.Ledger = 0 ↔ f.Ledger = none ∨ f.Ledger = some 0) ∧
            (q.Code = 0 ↔ f.Code = none ∨ ∃ c : Uint32, f.Code = some c ∧ c.val % 65536 = 0) ∧
            (q.UserData128 = types.Uint128.zero ↔
              f.UserData128 = none ∨ ∃ s, f.UserData128 = some s ∧ hexValue s = 0) ∧
            (q.Flags = 0 ↔
              f.Flags = none ∨ ∃ fl, f.Flags = some fl ∧ fl.Reversed ≠ some true)) ∧
      (∀ (g : proto.AccountFilter) (flt : types.AccountFilter),
        AccountFilterFromProtoToTigerbeetle (some g) = some (some flt, none) →
          (flt.TimestampMin = 0 ↔ g.TimestampMin = none ∨ g.TimestampMin = some 0) ∧
            (flt.TimestampMax = 0 ↔ g.TimestampMax = none ∨ g.TimestampMax = some 0) ∧
            (flt.Flags = 0 ↔
              g.Flags = none ∨
                ∃ fl, g.Flags = some fl ∧ fl.Debits ≠ some true ∧ fl.Credits ≠ some true ∧
                  fl.Reversed ≠ some true) ∧
            (flt.Flags.val.testBit 0 = false ↔
              g.Flags = none ∨ ∃ fl, g.Flags = some fl ∧ fl.Debits ≠ some true) ∧
            (flt.Flags.val.testBit 1 = false ↔
              g.Flags = none ∨ ∃ fl, g.Flags = some fl ∧ fl.Credits ≠ some true) ∧
            (flt.Flags.val.testBit 2 = false ↔
              g.Flags = none ∨ ∃ fl, g.Flags = some fl ∧ fl.Reversed ≠ some true)) := by
  refine ⟨?_, ?_, ?_, ?_⟩
  · intro t
    exact ⟨rfl, _, rfl, by simp [lo.ToPtr], by simp [lo.ToPtr], by simp [lo.ToPtr],
      by simp [lo.ToPtr], by simp [lo.ToPtr], by simp [lo.ToPtr], by simp [lo.ToPtr],
      by simp [lo.ToPtr], by simp [lo.ToPtr]⟩
  · intro a
    exact ⟨_, rfl, by simp [lo.ToPtr], by simp [lo.ToPtr], by simp [lo.ToPtr],
      by simp [lo.ToPtr], by simp [lo.ToPtr]⟩
  · intro f q h
    obtain ⟨h64, h32, hcode, hl, hmin, hmax, _⟩ := QueryFilterFromProtoToTigerbeetle_fields f q h
    obtain ⟨hunone, husome, hfnone, hfsome⟩ :=
      QueryFilterFromProtoToTigerbeetle_UserData128_Flags f q h
    simp only [FromPtrOr_eq_presentOrZero] at h64 h32 hl hmin hmax
    refine ⟨?_, ?_, ?_, ?_, ?_, ?_, ?_, ?_⟩
    · rw [hmin]; exact presentOrZero_eq_zero_iff _
    · rw [hmax]; exact presentOrZero_eq_zero_iff _
    · rw [h64]; exact presentOrZero_eq_zero_iff _
    · rw [h32]; exact presentOrZero_eq_zero_iff _
    · rw [hl]; exact presentOrZero_eq_zero_iff _
    · rw [hcode]
      cases hc : f.Code with
      | none =>
        simp only [true_or, iff_true]
        rfl
      | some c =>
        simp only [false_or, Option.some.injEq, exists_eq_left', reduceCtorEq]
        constructor
        · intro hz
          have := congrArg Fin.val hz
          exact this
        · intro hz
          apply Fin.ext
          exact hz
    · cases hu : f.UserData128 with
      | none =>
        simp only [true_or, iff_true]
        exact hunone hu
      | some s =>
        simp only [false_or, Option.some.injEq, exists_eq_left', reduceCtorEq]
        have hval := husome s hu
        constructor
        · intro hz
          rw [← hval, hz]
          rfl
        · intro hz
          exact Uint128_eq_of_val_eq _ _ (by rw [hval, hz]; rfl)
    · cases hfl : f.Flags with
      | none =>
        simp only [true_or, iff_true]
        exact Fin.ext (hfnone hfl)
      | some fl =>
        simp only [false_or, Option.some.injEq, exists_eq_left', reduceCtorEq]
        have hval := hfsome fl hfl
        constructor
        · intro hz hr
          rw [hz, if_pos hr] at hval
          exact absurd hval (by decide)
        · intro hr
          rw [if_neg hr] at hval
          exact Fin.ext hval
  · intro g flt h
    obtain ⟨hmin, hmax, _⟩ := AccountFilterFromProtoToTigerbeetle_fields g flt h
    have hflags := AccountFilterFromProtoToTigerbeetle_Flags g flt h
    simp only [FromPtrOr_eq_presentOrZero] at hmin hmax
    obtain ⟨hb0, hb1, hb2⟩ := AccountFilterFlags_ToUint32_testBit
      (types.AccountFilterFlags.mk (flagOn g.Flags (fun fl => fl.Debits))
        (flagOn g.Flags (fun fl => fl.Credits)) (flagOn g.Flags (fun fl => fl.Reversed)))
    rw [← hflags] at hb0 hb1 hb2
    simp only at hb0 hb1 hb2
    refine ⟨?_, ?_, ?_, ?_, ?_, ?_⟩
    · rw [hmin]; exact presentOrZero_eq_zero_iff _
    · rw [hmax]; exact presentOrZero_eq_zero_iff _
    · have hz : flt.Flags = 0 ↔ flt.Flags.val = 0 :=
        ⟨fun hx => by rw [hx]; rfl, fun hx => Fin.ext hx⟩
      rw [hz, hflags, AccountFilterFlags_ToUint32_eq_zero_iff]
      cases hfl : g.Flags with
      | none => simp [flagOn]
      | some fl => simp [flagOn]
    · rw [hb0]
      cases hfl : g.Flags with
      | none => simp [flagOn]
      | some fl => simp [flagOn]
    · rw [hb1]
      cases hfl : g.Flags with
      | none => simp [flagOn]
      | some fl => simp [flagOn]
    · rw [hb2]
      cases hfl : g.Flags with
      | none => simp [flagOn]
      | some fl => simp [flagOn]

/-- The query filter whose `TimestampMin` is present with the value 0 converts to a filter whose
`TimestampMin` is 0, and the query filter whose `Code` is present with the value 65536 converts
to a filter whose `Code` is 0. -/
theorem optional_fields_zero_witness :
    QueryFilterFromProtoToTigerbeetle (some queryFilterTimestampMinZero)
        = (some (types.QueryFilter.mk types.Uint128.zero 0 0 0 0 0 0 0 0), none) ∧
      ((types.QueryFilter.mk types.Uint128.zero 0 0 0 0 0 0 0 0).TimestampMin = 0 ↔
        queryFilterTimestampMinZero.TimestampMin = none ∨
          queryFilterTimestampMinZero.TimestampMin = some 0) ∧
      QueryFilterFromProtoToTigerbeetle (some { queryFilterOf none with Code := some 65536 })
        = (some (types.QueryFilter.mk types.Uint128.zero 0 0 0 0 0 0 0 0), none) ∧
      ((types.QueryFilter.mk types.Uint128.zero 0 0 0 0 0 0 0 0).Code = 0 ↔
        ({ queryFilterOf none with Code := some 65536 } : proto.QueryFilter).Code = none ∨
          ∃ c : Uint32,
            ({ queryFilterOf none with Code := some 65536 } : proto.QueryFilter).Code = some c ∧
              c.val % 65536 = 0) :=
  ⟨by decide,
    (optional_fields_zero.2.2.1 queryFilterTimestampMinZero
      (types.QueryFilter.mk types.Uint128.zero 0 0 0 0 0 0 0 0) (by decide)).1,
    by decide,
    (optional_fields_zero.2.2.1 { queryFilterOf none with Code := some 65536 }
      (types.QueryFilter.mk types.Uint128.zero 0 0 0 0 0 0 0 0) (by decide)).2.2.2.2.2.1⟩

/-- Claim C13 as stated fails: the transfer whose fields are all zero has the timestamp 0 and a
wire `Timestamp` that is present; and the query filter whose `TimestampMin` is present with the
value 0 converts successfully to the domain value 0 although the wire field is not absent. -/
theorem optional_fields_zero_counterexample :
    (zeroTransfer.Timestamp = 0 ∧ (TransferToProtoTransfer zeroTransfer).Timestamp = some 0 ∧
        ¬ ((TransferToProtoTransfer zeroTransfer).Timestamp = none ↔
            zeroTransfer.Timestamp = 0)) ∧
      (QueryFilterFromProtoToTigerbeetle (some queryFilterTimestampMinZero)
          = (some (types.QueryFilter.mk types.Uint128.zero 0 0 0 0 0 0 0 0), none) ∧
        ¬ (queryFilterTimestampMinZero.TimestampMin = none ↔
            (types.QueryFilter.mk types.Uint128.zero 0 0 0 0 0 0 0 0).TimestampMin = 0)) := by
  decide

/-- Claim C14. `ResultsToReply` does not check bounds: when every outcome index is less than the
number of submitted transfers it returns exactly one reply item per outcome, and when some
outcome index is greater than or equal to that number it returns no reply sequence at all, the
lookup fails with a run-time panic. -/
theorem ResultsToReply_bounds (results : List types.TransferEventResult)
    (transfers : List types.Transfer) (err : Option Error) :
    ((∀ r ∈ results, r.Index.val < transfers.length) →
        ∃ replies, ResultsToReply results transfers err = some replies ∧
          replies.length = results.length) ∧
      ((∃ r ∈ results, transfers.length ≤ r.Index.val) →
        ResultsToReply results transfers err = none) := by
  constructor
  · intro h
    obtain ⟨out, hout, hlen, _⟩ := ResultsToReply_loop_valid transfers results h []
    exact ⟨out, by simpa [ResultsToReply] using hout, hlen⟩
  · intro h
    exact ResultsToReply_loop_out_of_range transfers results h []

/-- With three submitted transfers, the outcomes with the indices 1 and 0 give two items, and
the outcomes with the indices 1 and 3 give no reply sequence, not even the item for index 1. -/
theorem ResultsToReply_bounds_witness :
    (∃ replies, ResultsToReply outcomesEx submittedEx none = some replies ∧
        replies.length = outcomesEx.length) ∧
      ResultsToReply [{ Index := 1, Result := 21 }, { Index := 3, Result := 46 }] submittedEx none
        = none :=
  ⟨(ResultsToReply_bounds outcomesEx submittedEx none).1 (by decide),
    (ResultsToReply_bounds [{ Index := 1, Result := 21 }, { Index := 3, Result := 46 }]
      submittedEx none).2 ⟨{ Index := 3, Result := 46 }, by decide, by decide⟩⟩

/-- Claim C15. Rendering then parsing is the identity on 128-bit integers: for every domain
Account and Transfer, `HexStringToUint128` of the wire `Id` (and of the wire account ids of a
transfer) succeeds and returns exactly the domain id; the rendering is never empty, the zero
id is rendered as `"0"`, and the id 427 is rendered with the three digits `"1ab"`. -/
theorem HexStringToUint128_of_rendering :
    (∀ v : types.Uint128, HexStringToUint128 v.String = (some v, none) ∧ v.String ≠ []) ∧
      (∀ a : types.Account, HexStringToUint128 (AccountToProtoAccount a).Id = (some a.ID, none)) ∧
      (∀ t : types.Transfer,
        HexStringToUint128 (TransferToProtoTransfer t).Id = (some t.ID, none) ∧
          HexStringToUint128 (TransferToProtoTransfer t).DebitAccountId
            = (some t.DebitAccountID, none) ∧
          HexStringToUint128 (TransferToProtoTransfer t).CreditAccountId
            = (some t.CreditAccountID, none)) ∧
      types.Uint128.zero.String = [48] ∧
      HexStringToUint128 [48] = (some types.Uint128.zero, none) ∧
      (types.Uint128.mk 427 (by decide)).String = [49, 97, 98] ∧
      HexStringToUint128 [49, 97, 98] = (some (types.Uint128.mk 427 (by decide)), none) := by
  refine ⟨fun v => ⟨HexStringToUint128_String v, String_ne_nil v⟩,
    fun a => HexStringToUint128_String a.ID,
    fun t => ⟨HexStringToUint128_String t.ID, HexStringToUint128_String t.DebitAccountID,
      HexStringToUint128_String t.CreditAccountID⟩, by decide, by decide, by decide, by decide⟩

/-- Claim C16. For every domain Account and every domain AccountBalance, each of the four wire
balance counters is the 128-bit domain counter modulo 2^64, and is the domain counter itself
exactly when the domain counter is below 2^64; the timestamp of an AccountBalance is copied
unchanged. -/
theorem balance_counters_mod (a : types.Account) (b : types.AccountBalance) :
    (((AccountToProtoAccount a).DebitsPending.val = a.DebitsPending.val % 2 ^ 64 ∧
          ((AccountToProtoAccount a).DebitsPending.val = a.DebitsPending.val ↔
            a.DebitsPending.val < 2 ^ 64)) ∧
        ((AccountToProtoAccount a).DebitsPosted.val = a.DebitsPosted.val % 2 ^ 64 ∧
          ((AccountToProtoAccount a).DebitsPosted.val = a.DebitsPosted.val ↔
            a.DebitsPosted.val < 2 ^ 64)) ∧
        ((AccountToProtoAccount a).CreditsPending.val = a.CreditsPending.val % 2 ^ 64 ∧
          ((AccountToProtoAccount a).CreditsPending.val = a.CreditsPending.val ↔
            a.CreditsPending.val < 2 ^ 64)) ∧
        ((AccountToProtoAccount a).CreditsPosted.val = a.CreditsPosted.val % 2 ^ 64 ∧
          ((AccountToProtoAccount a).CreditsPosted.val = a.CreditsPosted.val ↔
            a.CreditsPosted.val < 2 ^ 64))) ∧
      (((AccountBalanceFromTigerbeetleToProto b).DebitsPending.val
            = b.DebitsPending.val % 2 ^ 64 ∧
          ((AccountBalanceFromTigerbeetleToProto b).DebitsPending.val = b.DebitsPending.val ↔
            b.DebitsPending.val < 2 ^ 64)) ∧
        ((AccountBalanceFromTigerbeetleToProto b).DebitsPosted.val
            = b.DebitsPosted.val % 2 ^ 64 ∧
          ((AccountBalanceFromTigerbeetleToProto b).DebitsPosted.val = b.DebitsPosted.val ↔
            b.DebitsPosted.val < 2 ^ 64)) ∧
        ((AccountBalanceFromTigerbeetleToProto b).CreditsPending.val
            = b.CreditsPending.val % 2 ^ 64 ∧
          ((AccountBalanceFromTigerbeetleToProto b).CreditsPending.val = b.CreditsPending.val ↔
            b.CreditsPending.val < 2 ^ 64)) ∧
        ((AccountBalanceFromTigerbeetleToProto b).CreditsPosted.val
            = b.CreditsPosted.val % 2 ^ 64 ∧
          ((AccountBalanceFromTigerbeetleToProto b).CreditsPosted.val = b.CreditsPosted.val ↔
            b.CreditsPosted.val < 2 ^ 64))) ∧
      (AccountBalanceFromTigerbeetleToProto b).Timestamp = b.Timestamp :=
  ⟨⟨toUint64_BigInt _, toUint64_BigInt _, toUint64_BigInt _, toUint64_BigInt _⟩,
    ⟨toUint64_BigInt _, toUint64_BigInt _, toUint64_BigInt _, toUint64_BigInt _⟩, rfl⟩

/-- A balance whose `CreditsPosted` counter is 2^64 + 5 has the wire counter 5. -/
theorem balance_counters_mod_witness :
    (AccountBalanceFromTigerbeetleToProto
      { DebitsPending := types.Uint128.zero, DebitsPosted := types.Uint128.zero,
        CreditsPending := types.Uint128.zero,
        CreditsPosted := ⟨18446744073709551621, by decide⟩, Timestamp := 9 }).CreditsPosted.val
      = 5 :=
  ((balance_counters_mod zeroAccount
    { DebitsPending := types.Uint128.zero, DebitsPosted := types.Uint128.zero,
      CreditsPending := types.Uint128.zero,
      CreditsPosted := ⟨18446744073709551621, by decide⟩, Timestamp := 9 }).2.1.2.2.2.1).trans
    (by decide)

/-- Claim C17. For every domain Transfer, the wire `Amount` is the 128-bit amount as an integer
exactly when the amount is less than 2^63; in every case the wire `Amount` is the signed 64-bit
integer (between -2^63 and 2^63 - 1) that agrees with the amount modulo 2^64, its low 64 bits
read as two's complement, and it is negative when the low 64 bits are 2^63 or more. -/
theorem TransferToProtoTransfer_Amount (t : types.Transfer) :
    ((TransferToProtoTransfer t).Amount = (t.Amount.val : Int) ↔ t.Amount.val < 2 ^ 63) ∧
      (-(2 : Int) ^ 63 ≤ (TransferToProtoTransfer t).Amount ∧
        (TransferToProtoTransfer t).Amount < (2 : Int) ^ 63 ∧
        (TransferToProtoTransfer t).Amount % (2 : Int) ^ 64
          = ((t.Amount.val % 2 ^ 64 : Nat) : Int)) ∧
      (2 ^ 63 ≤ t.Amount.val % 2 ^ 64 →
        (TransferToProtoTransfer t).Amount = ((t.Amount.val % 2 ^ 64 : Nat) : Int) - 2 ^ 64 ∧
          (TransferToProtoTransfer t).Amount < 0) ∧
      (t.Amount.val % 2 ^ 64 < 2 ^ 63 →
        (TransferToProtoTransfer t).Amount = ((t.Amount.val % 2 ^ 64 : Nat) : Int)) := by
  have hamount : (TransferToProtoTransfer t).Amount = toInt64 t.Amount.val := by
    simp only [TransferToProtoTransfer, BigInt_eq]
  have hrange := toInt64_range t.Amount.val
  have hemod := toInt64_emod t.Amount.val
  have hiff := toInt64_eq_iff t.Amount.val
  rw [hamount]
  norm_num only at hrange hemod hiff ⊢
  refine ⟨hiff, ⟨hrange.1, hrange.2, hemod⟩, ?_, ?_⟩
  · intro h
    have hlt : t.Amount.val % 18446744073709551616 < 18446744073709551616 :=
      Nat.mod_lt _ (by decide)
    unfold toInt64
    rw [if_neg (by omega)]
    constructor
    · rfl
    · omega
  · intro h
    unfold toInt64
    rw [if_pos h]

/-- The amount 2^63 gives the wire amount -2^63, and the amount 5 gives the wire amount 5. -/
theorem TransferToProtoTransfer_Amount_witness :
    (TransferToProtoTransfer transferAmount2p63).Amount = -9223372036854775808 ∧
      (TransferToProtoTransfer { zeroTransfer with Amount := ⟨5, by decide⟩ }).Amount = 5 := by
  constructor
  · have h := ((TransferToProtoTransfer_Amount transferAmount2p63).2.2.1 (by decide)).1
    rw [h]
    decide
  · exact (TransferToProtoTransfer_Amount { zeroTransfer with Amount := ⟨5, by decide⟩ }).1.mpr
      (by decide)

/-- Claim C18. For every non-nil wire QueryFilter that converts successfully, the 16-bit `Code`
of the result is the wire code modulo 2^16, and 0 when the wire code is absent, so the wire
code 65536 + k with k below 65536 gives the code k; and the wire `Code` of an Account and of a
Transfer is the 16-bit domain code exactly. -/
theorem Code_conversions :
    (∀ (f : proto.QueryFilter) (q : types.QueryFilter),
        QueryFilterFromProtoToTigerbeetle (some f) = (some q, none) →
          (∀ c : Uint32, f.Code = some c → q.Code.val = c.val % 2 ^ 16) ∧
            (f.Code = none → q.Code.val = 0) ∧
            (∀ (c : Uint32) (k : Nat), f.Code = some c → c.val = 65536 + k → k < 65536 →
              q.Code.val = k)) ∧
      (∀ a : types.Account, (AccountToProtoAccount a).Code.val = a.Code.val) ∧
      (∀ t : types.Transfer, (TransferToProtoTransfer t).Code.val = t.Code.val) := by
  refine ⟨?_, ?_, ?_⟩
  · intro f q h
    obtain ⟨_, _, hcode, _⟩ := QueryFilterFromProtoToTigerbeetle_fields f q h
    rw [hcode]
    refine ⟨?_, ?_, ?_⟩
    · intro c hc
      rw [hc]
      rfl
    · intro hc
      rw [hc]
      rfl
    · intro c k hc hk hlt
      rw [hc]
      show c.val % 65536 = k
      omega
  · intro a
    exact Nat.mod_eq_of_lt (by have := a.Code.isLt; omega)
  · intro t
    exact Nat.mod_eq_of_lt (by have := t.Code.isLt; omega)

/-- The wire codes 65543 and 7 both convert to the filter code 7. -/
theorem Code_conversions_witness :
    QueryFilterFromProtoToTigerbeetle (some { queryFilterOf none with Code := some 65543 })
        = (some (types.QueryFilter.mk types.Uint128.zero 0 0 0 7 0 0 0 0), none) ∧
      QueryFilterFromProtoToTigerbeetle (some { queryFilterOf none with Code := some 7 })
        = (some (types.QueryFilter.mk types.Uint128.zero 0 0 0 7 0 0 0 0), none) ∧
      (types.QueryFilter.mk types.Uint128.zero 0 0 0 7 0 0 0 0).Code.val = 7 :=
  ⟨by decide, by decide,
    (Code_conversions.1 { queryFilterOf none with Code := some 65543 }
      (types.QueryFilter.mk types.Uint128.zero 0 0 0 7 0 0 0 0) (by decide)).2.2
      65543 7 rfl (by decide) (by decide)⟩

/-- Claim C19. `QueryFilterFromProtoToTigerbeetle` of a nil wire filter returns a nil filter and
a nil error; for every non-nil wire filter it returns either a filter and no error or an error
and no filter, so exactly one of the two is non-nil. -/
theorem QueryFilterFromProtoToTigerbeetle_results :
    QueryFilterFromProtoToTigerbeetle none = (none, none) ∧
      ∀ f : proto.QueryFilter,
        ((∃ q, QueryFilterFromProtoToTigerbeetle (some f) = (some q, none)) ∨
            (∃ e, QueryFilterFromProtoToTigerbeetle (some f) = (none, some e))) ∧
          ((QueryFilterFromProtoToTigerbeetle (some f)).1 = none ↔
            (QueryFilterFromProtoToTigerbeetle (some f)).2 ≠ none) := by
  refine ⟨rfl, ?_⟩
  intro f
  have hcases : (∃ q, QueryFilterFromProtoToTigerbeetle (some f) = (some q, none)) ∨
      (∃ e, QueryFilterFromProtoToTigerbeetle (some f) = (none, some e)) := by
    unfold QueryFilterFromProtoToTigerbeetle
    simp only
    split
    · exact Or.inr ⟨_, rfl⟩
    · exact Or.inl ⟨_, rfl⟩
  refine ⟨hcases, ?_⟩
  rcases hcases with ⟨q, hq⟩ | ⟨e, he⟩
  · rw [hq]
    simp
  · rw [he]
    simp

end grpc
